import Mathlib

/-!
# Wait objects of the HLE kernel (`src/core/hle/kernel/wait_object.cpp`)

A shallow embedding of `Kernel::WaitObject`: the registry of waiting threads
(`AddWaitingThread`, `RemoveWaitingThread`), the readiness scheduler
(`GetHighestPriorityReadyThread`), the wakeup protocol (`WakeupWaitingThread`)
and the mass-wakeup driver (`WakeupAllWaitingThreads`).

Threads and wait objects are referred to by identifiers (the pointers of the
C++ code); the kernel state maps identifiers to records.  The two virtual
capability operations `ShouldWait` / `Acquire` and the resumption callbacks are
parameters (`Env`).  The capability operations act on an abstract resource
state `σ`; a resumption callback is handed the kernel state and, besides
deciding the resumption, may change the resource state, register and
unregister threads, rewrite wait sets and arm wakeup timers.  Fatal assertions
(`ASSERT`, `ASSERT_MSG`) are modelled as the error result of `Except Fault`.
The `while` loop of `WakeupAllWaitingThreads` takes a fuel argument; `none`
means the fuel ran out.  A ghost `log` records the calls made to collaborators.
-/

set_option autoImplicit false

namespace Kernel

/-! ## Data model -/

/-- Identifier of a thread (a non-null `Thread*`). -/
abbrev ThreadId := Nat

/-- Identifier of a wait object (a `WaitObject*`). -/
abbrev ObjectId := Nat

/-- Identifier of a stored resumption callback. -/
abbrev CallbackId := Nat

/-- Modelled from the spec: the `ThreadStatus` enumeration of `thread.h`, which is
not part of the sources at hand.  The three wait states are the ones the source
names; the spec adds ready, running and terminated. -/
inductive ThreadStatus
  | THREADSTATUS_RUNNING
  | THREADSTATUS_READY
  | THREADSTATUS_WAIT_HLE_EVENT
  | THREADSTATUS_WAIT_SYNCH_ANY
  | THREADSTATUS_WAIT_SYNCH_ALL
  | THREADSTATUS_DEAD
  deriving DecidableEq, Repr

/-- Modelled from the spec: the `ThreadWakeupReason` enumeration of `thread.h`.
The wakeup protocol only ever passes `Signal`; `Timeout` is the reason of the
wakeup timer that the protocol cancels. -/
inductive ThreadWakeupReason
  | Signal
  | Timeout
  deriving DecidableEq, Repr

/-- Modelled from the spec: the part of the `Thread` record (`thread.h`) that the
wait-object code reads or writes: priority (a `u32`, lower is more urgent),
status, the ordered wait set, the optional resumption callback and whether a
wakeup timer is pending. -/
structure Thread where
  status : ThreadStatus
  current_priority : Nat
  wait_objects : List ObjectId
  wakeup_callback : Option CallbackId
  wakeup_timer_armed : Bool
  deriving DecidableEq, Repr

/-- The state of a `WaitObject`: the threads waiting on it, in registration order. -/
structure WaitObject where
  waiting_threads : List ThreadId
  deriving DecidableEq, Repr

/-- Ghost record of one call made to a collaborator of the wakeup protocol. -/
inductive Event
  | Acquire (object : ObjectId) (thread : ThreadId)
  | RemoveWaitingThread (object : ObjectId) (thread : ThreadId)
  | ClearWaitObjects (thread : ThreadId)
  | CancelWakeupTimer (thread : ThreadId)
  | WakeupCallback (reason : ThreadWakeupReason) (thread : ThreadId) (object : ObjectId)
      (index : Nat) (result : Bool)
  | ResumeFromWait (thread : ThreadId)
  deriving DecidableEq, Repr

/-- The fatal outcome of a failed `ASSERT` / `ASSERT_MSG`, one constructor per
assertion of the source: the status assertion of the scan
(`inconsistent_status`), the entry assertion of `WakeupWaitingThread`
(`wakeup_should_wait`) and the per-object assertion of its wait-all claim loop
(`claim_should_wait`). -/
inductive Fault
  | inconsistent_status
  | wakeup_should_wait
  | claim_should_wait
  deriving DecidableEq, Repr

/-- The kernel state the wait-object code works on: every thread record, every
wait object, the state `res` of the concrete resources (what `ShouldWait` reads
and `Acquire` changes) and the ghost log. -/
structure KernelState (σ : Type) where
  threads : ThreadId → Thread
  objects : ObjectId → WaitObject
  res : σ
  log : List Event

/-- Modelled from the spec: what a resumption callback may do to the wait
bookkeeping besides returning its decision.  The source hands the callback
the thread and the triggering object; the spec lets the operation that
declined a resumption re-arm the wait registration it still needs.  A callback
reaches a registry through the two public operations of the wait object, and
a thread through its wait set and its wakeup timer. -/
inductive CallbackAction
  | AddWaitingThread (object : ObjectId) (thread : ThreadId)
  | RemoveWaitingThread (object : ObjectId) (thread : ThreadId)
  | SetWaitObjects (thread : ThreadId) (wait_objects : List ObjectId)
  | ArmWakeupTimer (thread : ThreadId)
  deriving DecidableEq, Repr

/-- The thread that a callback action is about. -/
def CallbackAction.thread : CallbackAction → ThreadId
  | CallbackAction.AddWaitingThread _ t => t
  | CallbackAction.RemoveWaitingThread _ t => t
  | CallbackAction.SetWaitObjects t _ => t
  | CallbackAction.ArmWakeupTimer t => t

/-- What one run of a resumption callback yields: the boolean it returns, the
resource state it leaves, and the actions it took, in order. -/
structure CallbackOutcome (σ : Type) where
  resume : Bool
  res : σ
  actions : List CallbackAction

/-- The collaborators that are not defined in `wait_object.cpp`.

* `THREADPRIO_LOWEST`: the constant of `thread.h`, taken as a parameter.
* `ShouldWait`, `Acquire`: the pure virtual capability operations of each
  resource kind, modelled from the spec: `ShouldWait` is a pure predicate of
  the resource state and receives the raw pointer, which may be null;
  `Acquire` performs the resource-specific claim on the resource state.
* `callbacks`: the stored resumption callbacks; a callback receives
  (reason, thread, object, index) and the kernel state in which it is
  invoked. -/
structure Env (σ : Type) where
  THREADPRIO_LOWEST : Nat
  ShouldWait : σ → ObjectId → Option ThreadId → Bool
  Acquire : σ → ObjectId → ThreadId → σ
  callbacks : CallbackId → ThreadWakeupReason → ThreadId → ObjectId → Nat →
    KernelState σ → CallbackOutcome σ

variable {σ : Type}

/-- Replace the record of thread `t`. -/
def KernelState.setThread (k : KernelState σ) (t : ThreadId) (th : Thread) : KernelState σ :=
  { k with threads := fun x => if x = t then th else k.threads x }

/-- Replace the state of wait object `o`. -/
def KernelState.setObject (k : KernelState σ) (o : ObjectId) (w : WaitObject) : KernelState σ :=
  { k with objects := fun x => if x = o then w else k.objects x }

/-- Append one event to the ghost log. -/
def KernelState.record (k : KernelState σ) (e : Event) : KernelState σ :=
  { k with log := k.log ++ [e] }

/-! ## Registry operations -/

/-- `WaitObject::AddWaitingThread`: `std::find`, then `push_back` when absent. -/
def AddWaitingThread (O : ObjectId) (thread : ThreadId) (k : KernelState σ) : KernelState σ :=
  let waiting_threads := (k.objects O).waiting_threads
  if thread ∈ waiting_threads then k
  else k.setObject O { waiting_threads := waiting_threads ++ [thread] }

/-- `WaitObject::RemoveWaitingThread`: `std::find`, then `erase` of that one
position when found. -/
def RemoveWaitingThread (O : ObjectId) (thread : ThreadId) (k : KernelState σ) : KernelState σ :=
  let waiting_threads := (k.objects O).waiting_threads
  if thread ∈ waiting_threads then
    (k.setObject O { waiting_threads := waiting_threads.erase thread }).record
      (Event.RemoveWaitingThread O thread)
  else k.record (Event.RemoveWaitingThread O thread)

/-- `WaitObject::GetWaitingThreads`. -/
def GetWaitingThreads (O : ObjectId) (k : KernelState σ) : List ThreadId :=
  (k.objects O).waiting_threads

/-! ## Readiness scheduler -/

/-- The two locals of the scan: `candidate` and `candidate_priority`. -/
structure Scan where
  candidate : Option ThreadId
  candidate_priority : Nat
  deriving DecidableEq, Repr

/-- The status assertion at the head of the scan loop body. -/
def validWaitStatus (s : ThreadStatus) : Bool :=
  s == ThreadStatus.THREADSTATUS_WAIT_SYNCH_ANY ||
  s == ThreadStatus.THREADSTATUS_WAIT_SYNCH_ALL ||
  s == ThreadStatus.THREADSTATUS_WAIT_HLE_EVENT

/-- One iteration of the loop body of `GetHighestPriorityReadyThread`. -/
def scanStep (env : Env σ) (k : KernelState σ) (O : ObjectId) (acc : Scan) (t : ThreadId) :
    Except Fault Scan :=
  let thread := k.threads t
  if !validWaitStatus thread.status then Except.error Fault.inconsistent_status
  else if thread.current_priority ≥ acc.candidate_priority then Except.ok acc
  else if env.ShouldWait k.res O (some t) then Except.ok acc
  else
    let ready_to_run :=
      if thread.status = ThreadStatus.THREADSTATUS_WAIT_SYNCH_ALL then
        !(thread.wait_objects.any (fun object => env.ShouldWait k.res object (some t)))
      else true
    if ready_to_run then Except.ok { candidate := some t, candidate_priority := thread.current_priority }
    else Except.ok acc

/-- The range-based `for` over `waiting_threads`. -/
def scanThreads (env : Env σ) (k : KernelState σ) (O : ObjectId) :
    List ThreadId → Scan → Except Fault Scan
  | [], acc => Except.ok acc
  | t :: rest, acc =>
    match scanStep env k O acc t with
    | Except.error e => Except.error e
    | Except.ok acc1 => scanThreads env k O rest acc1

/-- The initial `candidate_priority`: `THREADPRIO_LOWEST + 1` as a `u32`. -/
def initialCandidatePriority (env : Env σ) : Nat :=
  (env.THREADPRIO_LOWEST + 1) % 2 ^ 32

/-- `WaitObject::GetHighestPriorityReadyThread`; `none` is the null result. -/
def GetHighestPriorityReadyThread (env : Env σ) (O : ObjectId) (k : KernelState σ) :
    Except Fault (Option ThreadId) :=
  match scanThreads env k O (k.objects O).waiting_threads
      { candidate := none, candidate_priority := initialCandidatePriority env } with
  | Except.error e => Except.error e
  | Except.ok acc => Except.ok acc.candidate

/-! ## Thread collaborators -/

/-- Modelled from the spec: `Thread::IsSleepingOnWaitAll` (`thread.h`), the
"is this thread in wait-all mode" predicate. -/
def IsSleepingOnWaitAll (th : Thread) : Bool :=
  th.status == ThreadStatus.THREADSTATUS_WAIT_SYNCH_ALL

/-- Modelled from the spec: `Thread::GetWaitObjectIndex` (`thread.cpp`), the index
of the object within the thread's wait set. -/
def GetWaitObjectIndex (th : Thread) (O : ObjectId) : Nat :=
  th.wait_objects.indexOf O

/-- Modelled from the spec: `Thread::CancelWakeupTimer` (`thread.cpp`), which
cancels the pending wakeup timer of the thread. -/
def CancelWakeupTimer (t : ThreadId) (k : KernelState σ) : KernelState σ :=
  (k.setThread t { k.threads t with wakeup_timer_armed := false }).record
    (Event.CancelWakeupTimer t)

/-- Modelled from the spec: `Thread::ResumeFromWait` (`thread.cpp`), which moves
the thread from its wait status to ready. -/
def ResumeFromWait (t : ThreadId) (k : KernelState σ) : KernelState σ :=
  (k.setThread t { k.threads t with status := ThreadStatus.THREADSTATUS_READY }).record
    (Event.ResumeFromWait t)

/-! ## Wakeup protocol -/

/-- A call of `object->Acquire(thread)`. -/
def Acquire (env : Env σ) (O : ObjectId) (t : ThreadId) (k : KernelState σ) : KernelState σ :=
  { k with res := env.Acquire k.res O t, log := k.log ++ [Event.Acquire O t] }

/-- The wait-all claim loop: for each object of the wait set, assert that it
does not block, then acquire it. -/
def acquireAll (env : Env σ) (t : ThreadId) :
    List ObjectId → KernelState σ → Except Fault (KernelState σ)
  | [], k => Except.ok k
  | object :: rest, k =>
    if env.ShouldWait k.res object (some t) then Except.error Fault.claim_should_wait
    else acquireAll env t rest (Acquire env object t k)

/-- The detach loop: `object->RemoveWaitingThread(thread)` for each object of the
wait set. -/
def removeFromAll (t : ThreadId) : List ObjectId → KernelState σ → KernelState σ
  | [], k => k
  | object :: rest, k => removeFromAll t rest (RemoveWaitingThread object t k)

/-- The statement `thread->wait_objects.clear()`. -/
def clearWaitObjects (t : ThreadId) (k : KernelState σ) : KernelState σ :=
  (k.setThread t { k.threads t with wait_objects := [] }).record (Event.ClearWaitObjects t)

/-- Perform one action of a resumption callback. -/
def applyAction : CallbackAction → KernelState σ → KernelState σ
  | CallbackAction.AddWaitingThread object t, k => AddWaitingThread object t k
  | CallbackAction.RemoveWaitingThread object t, k => RemoveWaitingThread object t k
  | CallbackAction.SetWaitObjects t wait_objects, k =>
    k.setThread t { k.threads t with wait_objects := wait_objects }
  | CallbackAction.ArmWakeupTimer t, k =>
    k.setThread t { k.threads t with wakeup_timer_armed := true }

/-- Perform the actions of a resumption callback, first action first. -/
def applyActions : List CallbackAction → KernelState σ → KernelState σ
  | [], k => k
  | action :: rest, k => applyActions rest (applyAction action k)

/-- The callback step: `resume` and the state after the callback ran.  The
callback is invoked on the current state; its actions and its resource state
take effect, and the ghost log gets the one entry of the invocation. -/
def runWakeupCallback (env : Env σ) (O : ObjectId) (t : ThreadId) (index : Nat)
    (k : KernelState σ) : Bool × KernelState σ :=
  match (k.threads t).wakeup_callback with
  | none => (true, k)
  | some cb =>
    let r := env.callbacks cb ThreadWakeupReason.Signal t O index k
    (r.resume, { applyActions r.actions k with
                 res := r.res,
                 log := k.log ++
                   [Event.WakeupCallback ThreadWakeupReason.Signal t O index r.resume] })

/-- The claim step of `WakeupWaitingThread`: the `if`/`else` over
`IsSleepingOnWaitAll`. -/
def claimStep (env : Env σ) (O : ObjectId) (t : ThreadId) (k : KernelState σ) :
    Except Fault (KernelState σ) :=
  if !IsSleepingOnWaitAll (k.threads t) then Except.ok (Acquire env O t k)
  else acquireAll env t (k.threads t).wait_objects k

/-- The rest of `WakeupWaitingThread`, from `GetWaitObjectIndex` to the end:
record the index, detach, clear the wait set, cancel the timer, run the
callback, resume when authorised. -/
def finishWakeup (env : Env σ) (O : ObjectId) (t : ThreadId) (k1 : KernelState σ) :
    KernelState σ :=
  let index := GetWaitObjectIndex (k1.threads t) O
  let k2 := removeFromAll t (k1.threads t).wait_objects k1
  let k3 := clearWaitObjects t k2
  let k4 := CancelWakeupTimer t k3
  let r := runWakeupCallback env O t index k4
  if r.1 then ResumeFromWait t r.2 else r.2

/-- `WaitObject::WakeupWaitingThread`; `thread = none` is the null pointer. -/
def WakeupWaitingThread (env : Env σ) (O : ObjectId) (thread : Option ThreadId)
    (k : KernelState σ) : Except Fault (KernelState σ) :=
  if env.ShouldWait k.res O thread then Except.error Fault.wakeup_should_wait
  else
    match thread with
    | none => Except.ok k
    | some t =>
      match claimStep env O t k with
      | Except.error e => Except.error e
      | Except.ok k1 => Except.ok (finishWakeup env O t k1)

/-! ## Mass-wakeup driver -/

/-- `WaitObject::WakeupAllWaitingThreads`.  Each unit of fuel pays for one
evaluation of the loop condition; `none` means the fuel ran out before the
loop ended. -/
def WakeupAllWaitingThreads (env : Env σ) (O : ObjectId) :
    Nat → KernelState σ → Option (Except Fault (KernelState σ))
  | 0, _ => none
  | fuel + 1, k =>
    match GetHighestPriorityReadyThread env O k with
    | Except.error e => some (Except.error e)
    | Except.ok none => some (Except.ok k)
    | Except.ok (some thread) =>
      match WakeupWaitingThread env O (some thread) k with
      | Except.error e => some (Except.error e)
      | Except.ok k1 => WakeupAllWaitingThreads env O fuel k1

/-! ## Vocabulary of the properties -/

/-- A thread is eligible on `O`: the object does not block it and, when the
thread sleeps in wait-all mode, no object of its wait set blocks it. -/
def Eligible (env : Env σ) (O : ObjectId) (k : KernelState σ) (t : ThreadId) : Prop :=
  env.ShouldWait k.res O (some t) = false ∧
  ((k.threads t).status = ThreadStatus.THREADSTATUS_WAIT_SYNCH_ALL →
    ∀ object ∈ (k.threads t).wait_objects, env.ShouldWait k.res object (some t) = false)

instance instDecidableEligible (env : Env σ) (O : ObjectId) (k : KernelState σ) (t : ThreadId) :
    Decidable (Eligible env O k t) :=
  inferInstanceAs (Decidable (env.ShouldWait k.res O (some t) = false ∧
    ((k.threads t).status = ThreadStatus.THREADSTATUS_WAIT_SYNCH_ALL →
      ∀ object ∈ (k.threads t).wait_objects, env.ShouldWait k.res object (some t) = false)))

/-- The priority value of thread `t`. -/
def prio (k : KernelState σ) (t : ThreadId) : Nat := (k.threads t).current_priority

/-- The objects that the claim step of `WakeupWaitingThread` on `O` is to
acquire for thread `t`, in order. -/
def claimedObjects (k : KernelState σ) (O : ObjectId) (t : ThreadId) : List ObjectId :=
  if (k.threads t).status = ThreadStatus.THREADSTATUS_WAIT_SYNCH_ALL then
    (k.threads t).wait_objects
  else [O]

/-- The state in which `WakeupWaitingThread` invokes the resumption callback:
the state `k1` after the claim step with the thread detached from the objects
of its wait set, its wait set cleared and its wakeup timer cancelled. -/
def detachedState (t : ThreadId) (k1 : KernelState σ) : KernelState σ :=
  CancelWakeupTimer t (clearWaitObjects t (removeFromAll t (k1.threads t).wait_objects k1))

/-- What the resumption callback of thread `t` yields when object `O` wakes it,
`k1` being the state after the claim step: `none` when the thread carries no
callback. -/
def callbackOutcome (env : Env σ) (O : ObjectId) (t : ThreadId) (k1 : KernelState σ) :
    Option (CallbackOutcome σ) :=
  match (k1.threads t).wakeup_callback with
  | none => none
  | some cb =>
    some (env.callbacks cb ThreadWakeupReason.Signal t O
      (GetWaitObjectIndex (k1.threads t) O) (detachedState t k1))

/-- The decision of the resumption callback of thread `t` when object `O` wakes
it in state `k1` (the state after the claim step): `none` when the thread
carries no callback. -/
def callbackResult (env : Env σ) (O : ObjectId) (t : ThreadId) (k1 : KernelState σ) :
    Option Bool :=
  match callbackOutcome env O t k1 with
  | none => none
  | some r => some r.resume

/-- The actions of the resumption callback of thread `t` when object `O` wakes
it in state `k1`: none when the thread carries no callback. -/
def callbackActions (env : Env σ) (O : ObjectId) (t : ThreadId) (k1 : KernelState σ) :
    List CallbackAction :=
  match callbackOutcome env O t k1 with
  | none => []
  | some r => r.actions

/-- The events that `WakeupWaitingThread` logs after the claim step. -/
def wakeupEvents (env : Env σ) (O : ObjectId) (t : ThreadId) (k1 : KernelState σ) :
    List Event :=
  (k1.threads t).wait_objects.map (fun object => Event.RemoveWaitingThread object t) ++
  [Event.ClearWaitObjects t, Event.CancelWakeupTimer t] ++
  (match callbackResult env O t k1 with
   | none => []
   | some b => [Event.WakeupCallback ThreadWakeupReason.Signal t O
       (GetWaitObjectIndex (k1.threads t) O) b]) ++
  (if callbackResult env O t k1 = some false then [] else [Event.ResumeFromWait t])

/-- Erase the first occurrence of `t`, `n` times over. -/
def eraseTimes (t : ThreadId) : Nat → List ThreadId → List ThreadId
  | 0, l => l
  | n + 1, l => eraseTimes t n (l.erase t)

/-- The events of the log that are `Acquire` calls. -/
def isAcquire : Event → Bool
  | Event.Acquire _ _ => true
  | _ => false

/-- The states in which the loop of `WakeupAllWaitingThreads` on `O`, started in
`k`, tests its condition: `k` itself, and the state after each completed
wakeup of the thread the scheduler returned. -/
inductive LoopReaches {σ : Type} (env : Env σ) (O : ObjectId) :
    KernelState σ → KernelState σ → Prop
  | start (k : KernelState σ) : LoopReaches env O k k
  | next (k k1 k2 : KernelState σ) (T : ThreadId) :
      GetHighestPriorityReadyThread env O k = Except.ok (some T) →
      WakeupWaitingThread env O (some T) k = Except.ok k1 →
      LoopReaches env O k1 k2 → LoopReaches env O k k2

/-! ## Concrete resources and states used to instantiate the results -/

/-- A resource world of sticky events: the state lists the objects that
currently block; `Acquire` leaves the signal in place.  Callback `0` declines
the resumption, every other callback grants it. -/
def stickyEnv : Env (List ObjectId) where
  THREADPRIO_LOWEST := 63
  ShouldWait := fun s object _ => decide (object ∈ s)
  Acquire := fun s _ _ => s
  callbacks := fun cb _ _ _ _ k => { resume := decide (cb ≠ 0), res := k.res, actions := [] }

/-- A waiting thread record. -/
def mkThread (status : ThreadStatus) (priority : Nat) (wait_objects : List ObjectId)
    (cb : Option CallbackId) : Thread :=
  { status := status, current_priority := priority, wait_objects := wait_objects,
    wakeup_callback := cb, wakeup_timer_armed := true }

/-- A thread that waits on nothing. -/
def idleThread : Thread :=
  { status := ThreadStatus.THREADSTATUS_READY, current_priority := 63, wait_objects := [],
    wakeup_callback := none, wakeup_timer_armed := false }

/-- Threads 1 (priority 10), 2 (priority 5) and 3 (priority 7) wait for any of
their objects and are registered in that order on object 0, which is ready. -/
def distinctState : KernelState (List ObjectId) where
  threads := fun t =>
    if t = 1 then mkThread ThreadStatus.THREADSTATUS_WAIT_SYNCH_ANY 10 [0] none
    else if t = 2 then mkThread ThreadStatus.THREADSTATUS_WAIT_SYNCH_ANY 5 [0] none
    else if t = 3 then mkThread ThreadStatus.THREADSTATUS_WAIT_SYNCH_ANY 7 [0] none
    else idleThread
  objects := fun o => if o = 0 then { waiting_threads := [1, 2, 3] } else { waiting_threads := [] }
  res := []
  log := []

/-- Threads 1 (priority 9), 2 (priority 5) and 3 (priority 5) are registered in
that order on object 0, which is ready: 2 and 3 tie. -/
def tieState : KernelState (List ObjectId) where
  threads := fun t =>
    if t = 1 then mkThread ThreadStatus.THREADSTATUS_WAIT_SYNCH_ANY 9 [0] none
    else if t = 2 then mkThread ThreadStatus.THREADSTATUS_WAIT_SYNCH_ANY 5 [0] none
    else if t = 3 then mkThread ThreadStatus.THREADSTATUS_WAIT_SYNCH_ANY 5 [0] none
    else idleThread
  objects := fun o => if o = 0 then { waiting_threads := [1, 2, 3] } else { waiting_threads := [] }
  res := []
  log := []

/-- Thread 7 sleeps in wait-all mode on objects 1 and 2 and is registered on
both; `blocking` lists the objects that are not ready. -/
def waitAllState (blocking : List ObjectId) : KernelState (List ObjectId) where
  threads := fun t =>
    if t = 7 then mkThread ThreadStatus.THREADSTATUS_WAIT_SYNCH_ALL 20 [1, 2] none
    else idleThread
  objects := fun o =>
    if o = 1 then { waiting_threads := [7] }
    else if o = 2 then { waiting_threads := [7] }
    else { waiting_threads := [] }
  res := blocking
  log := []

/-- Thread 7 (priority 20, resumption callback `cb`) sleeps in wait-all mode on
objects 1 and 2; thread 8 (priority 30) waits for object 1.  Object 1 holds
threads 8 and 7, object 2 holds thread 7; both objects are ready. -/
def wakeState (cb : Option CallbackId) : KernelState (List ObjectId) where
  threads := fun t =>
    if t = 7 then mkThread ThreadStatus.THREADSTATUS_WAIT_SYNCH_ALL 20 [1, 2] cb
    else if t = 8 then mkThread ThreadStatus.THREADSTATUS_WAIT_SYNCH_ANY 30 [1] none
    else idleThread
  objects := fun o =>
    if o = 1 then { waiting_threads := [8, 7] }
    else if o = 2 then { waiting_threads := [7] }
    else { waiting_threads := [] }
  res := []
  log := []

/-- The state `wakeState none` with object 2 blocking: thread 8 is ready on
object 1, thread 7 is not (it waits for all of objects 1 and 2). -/
def partlyReadyState : KernelState (List ObjectId) :=
  { wakeState none with res := [2] }

/-- A resource world in which no object ever blocks: `ShouldWait` is false in
every state, `Acquire` and the callbacks change nothing. -/
def alwaysReadyEnv : Env Unit where
  THREADPRIO_LOWEST := 63
  ShouldWait := fun _ _ _ => false
  Acquire := fun s _ _ => s
  callbacks := fun _ _ _ _ _ k => { resume := true, res := k.res, actions := [] }

/-- Thread 1 has priority 64, one more than `THREADPRIO_LOWEST = 63`; thread 2
has priority 5.  Both wait for object 0 and are registered on it. -/
def lowPriorityState : KernelState Unit where
  threads := fun t =>
    if t = 1 then mkThread ThreadStatus.THREADSTATUS_WAIT_SYNCH_ANY 64 [0] none
    else if t = 2 then mkThread ThreadStatus.THREADSTATUS_WAIT_SYNCH_ANY 5 [0] none
    else idleThread
  objects := fun o => if o = 0 then { waiting_threads := [1, 2] } else { waiting_threads := [] }
  res := ()
  log := []

/-- The scenario of the spec: thread 1 (`B`, priority 10) then thread 2 (`C`,
priority 5) register on object 0, which is released. -/
def scenarioState : KernelState Unit where
  threads := fun t =>
    if t = 1 then mkThread ThreadStatus.THREADSTATUS_WAIT_SYNCH_ANY 10 [0] none
    else if t = 2 then mkThread ThreadStatus.THREADSTATUS_WAIT_SYNCH_ANY 5 [0] none
    else idleThread
  objects := fun o => if o = 0 then { waiting_threads := [1, 2] } else { waiting_threads := [] }
  res := ()
  log := []

/-- The threads of the `Acquire` calls made on object `O`, in order: the threads
that `O` woke. -/
def wokenThreads (O : ObjectId) : List Event → List ThreadId
  | [] => []
  | Event.Acquire object t :: rest =>
    if object = O then t :: wokenThreads O rest else wokenThreads O rest
  | _ :: rest => wokenThreads O rest

/-- The order in which a registry `reg` is to be served: `a` goes before `b`
when its priority value is smaller, or equal with `a` registered before `b`. -/
def servedBefore (k : KernelState σ) (reg : List ThreadId) (a b : ThreadId) : Prop :=
  prio k a < prio k b ∨ (prio k a = prio k b ∧ List.Sublist [a, b] reg)

/-- A call of one of the two mutators of the registry of a wait object. -/
inductive RegistryCall
  | AddWaitingThread (object : ObjectId) (thread : ThreadId)
  | RemoveWaitingThread (object : ObjectId) (thread : ThreadId)
  deriving DecidableEq, Repr

/-- Perform one registry call. -/
def applyCall : RegistryCall → KernelState σ → KernelState σ
  | RegistryCall.AddWaitingThread object thread, k => AddWaitingThread object thread k
  | RegistryCall.RemoveWaitingThread object thread, k => RemoveWaitingThread object thread k

/-- Perform a sequence of registry calls, first call first. -/
def applyCalls : List RegistryCall → KernelState σ → KernelState σ
  | [], k => k
  | call :: rest, k => applyCalls rest (applyCall call k)

/-- A state in which no thread is registered anywhere. -/
def emptyState : KernelState Unit where
  threads := fun _ => idleThread
  objects := fun _ => { waiting_threads := [] }
  res := ()
  log := []

/-- Object 0 holds threads 4, 5 and 6 in that order. -/
def threeRegistered : KernelState Unit where
  threads := fun _ => idleThread
  objects := fun o => if o = 0 then { waiting_threads := [4, 5, 6] } else { waiting_threads := [] }
  res := ()
  log := []

/-- Thread 3 is ready (it no longer waits) but is still in the registry of
object 0, which blocks. -/
def staleState : KernelState (List ObjectId) where
  threads := fun t =>
    if t = 3 then mkThread ThreadStatus.THREADSTATUS_READY 10 [0] none else idleThread
  objects := fun o => if o = 0 then { waiting_threads := [3] } else { waiting_threads := [] }
  res := [0]
  log := []

/-- The events of the log that are calls of a resumption callback. -/
def isCallback : Event → Bool
  | Event.WakeupCallback _ _ _ _ _ => true
  | _ => false

/-- A resource world of counting semaphores: the state gives the available
count of each object, an object blocks when its count is zero, and `Acquire`
takes one unit from the object it is invoked on and from no other. -/
def semaphoreEnv : Env (ObjectId → Nat) where
  THREADPRIO_LOWEST := 63
  ShouldWait := fun s object _ => decide (s object = 0)
  Acquire := fun s object _ => fun o => if o = object then s o - 1 else s o
  callbacks := fun _ _ _ _ _ k => { resume := true, res := k.res, actions := [] }

/-- Thread 7 sleeps in wait-all mode and passed two handles to the same
semaphore, object 1, whose count is 1: its wait set is `[1, 1]` and the
registry of object 1 holds it once. -/
def duplicateHandleState : KernelState (ObjectId → Nat) where
  threads := fun t =>
    if t = 7 then mkThread ThreadStatus.THREADSTATUS_WAIT_SYNCH_ALL 20 [1, 1] none
    else idleThread
  objects := fun o => if o = 1 then { waiting_threads := [7] } else { waiting_threads := [] }
  res := fun o => if o = 1 then 1 else 0
  log := []

/-- Thread 7 sleeps in wait-all mode on the semaphores 1 and 2, each of count 1. -/
def twoSemaphoresState : KernelState (ObjectId → Nat) where
  threads := fun t =>
    if t = 7 then mkThread ThreadStatus.THREADSTATUS_WAIT_SYNCH_ALL 20 [1, 2] none
    else idleThread
  objects := fun o =>
    if o = 1 then { waiting_threads := [7] }
    else if o = 2 then { waiting_threads := [7] }
    else { waiting_threads := [] }
  res := fun o => if o = 1 then 1 else if o = 2 then 1 else 0
  log := []

/-- The relationship invariant of the data model: a thread is in the registry
of an object exactly when the object is in the wait set of the thread. -/
def Linked (k : KernelState σ) : Prop :=
  ∀ (X : ThreadId) (P : ObjectId),
    X ∈ (k.objects P).waiting_threads ↔ P ∈ (k.threads X).wait_objects

/-- A sticky-event world with callbacks that act.  Callback `3` declines the
resumption and re-arms the wait on the triggering object: it registers the
thread on the object again, makes the object its wait set and arms its timer.
Callback `5` grants the resumption and takes the resource back, so that object
0 blocks.  Callback `0` declines and every other callback grants, without any
action. -/
def rearmEnv : Env (List ObjectId) where
  THREADPRIO_LOWEST := 63
  ShouldWait := fun s object _ => decide (object ∈ s)
  Acquire := fun s _ _ => s
  callbacks := fun cb _ thread object _ k =>
    if cb = 3 then
      { resume := false, res := k.res,
        actions := [CallbackAction.AddWaitingThread object thread,
          CallbackAction.SetWaitObjects thread [object],
          CallbackAction.ArmWakeupTimer thread] }
    else if cb = 5 then { resume := true, res := [0], actions := [] }
    else { resume := decide (cb ≠ 0), res := k.res, actions := [] }

/-- Thread 1 (priority 10, re-arming callback `3`) waits for object 0 and is
registered on it; object 0 is ready. -/
def rearmState : KernelState (List ObjectId) where
  threads := fun t =>
    if t = 1 then mkThread ThreadStatus.THREADSTATUS_WAIT_SYNCH_ANY 10 [0] (some 3)
    else idleThread
  objects := fun o => if o = 0 then { waiting_threads := [1] } else { waiting_threads := [] }
  res := []
  log := []

/-- Threads 1 (priority 5, callback `cb`) and 2 (priority 10, no callback) wait
for object 0 and are registered on it in that order; object 0 is ready. -/
def pairState (cb : Option CallbackId) : KernelState (List ObjectId) where
  threads := fun t =>
    if t = 1 then mkThread ThreadStatus.THREADSTATUS_WAIT_SYNCH_ANY 5 [0] cb
    else if t = 2 then mkThread ThreadStatus.THREADSTATUS_WAIT_SYNCH_ANY 10 [0] none
    else idleThread
  objects := fun o => if o = 0 then { waiting_threads := [1, 2] } else { waiting_threads := [] }
  res := []
  log := []

/-! ## The scan of `GetHighestPriorityReadyThread` -/

theorem scanStep_cases (env : Env σ) (k : KernelState σ) (O : ObjectId) (acc acc1 : Scan)
    (t : ThreadId) (h : scanStep env k O acc t = Except.ok acc1) :
    (acc1 = acc ∧ (Eligible env O k t → acc.candidate_priority ≤ prio k t)) ∨
    (acc1 = { candidate := some t, candidate_priority := prio k t } ∧
      prio k t < acc.candidate_priority ∧ Eligible env O k t) := by
  unfold scanStep at h
  simp only [prio, Eligible] at *
  split_ifs at h with h1 h2 h3 h4 h5 h5
  · left
    exact ⟨(Except.ok.inj h).symm, fun _ => h2⟩
  · left
    refine ⟨(Except.ok.inj h).symm, fun he => ?_⟩
    rw [he.1] at h3
    exact absurd h3 (by simp)
  · right
    refine ⟨(Except.ok.inj h).symm, by omega, by simpa using h3, fun _ object ho => ?_⟩
    simp only [h4, if_true] at h5
    have h6 : ¬ ∃ x ∈ (k.threads t).wait_objects, env.ShouldWait k.res x (some t) = true := by
      simpa using h5
    cases hs : env.ShouldWait k.res object (some t)
    · rfl
    · exact absurd ⟨object, ho, hs⟩ h6
  · left
    refine ⟨(Except.ok.inj h).symm, fun he => ?_⟩
    simp only [h4, if_true] at h5
    have h6 : ∃ x ∈ (k.threads t).wait_objects, env.ShouldWait k.res x (some t) = true := by
      simpa using h5
    obtain ⟨x, hx, hxs⟩ := h6
    rw [he.2 h4 x hx] at hxs
    exact absurd hxs (by simp)
  · right
    refine ⟨(Except.ok.inj h).symm, by omega, by simpa using h3, fun hall => absurd hall h4⟩
  · simp [h4] at h5

theorem scanThreads_spec (env : Env σ) (k : KernelState σ) (O : ObjectId) :
    ∀ (l : List ThreadId) (acc acc1 : Scan), scanThreads env k O l acc = Except.ok acc1 →
      (acc1 = acc ∧ ∀ x ∈ l, Eligible env O k x → acc.candidate_priority ≤ prio k x) ∨
      (∃ T pre post, l = pre ++ T :: post ∧
        acc1 = { candidate := some T, candidate_priority := prio k T } ∧
        prio k T < acc.candidate_priority ∧ Eligible env O k T ∧
        (∀ x ∈ pre, Eligible env O k x → prio k T < prio k x) ∧
        (∀ x ∈ post, Eligible env O k x → prio k T ≤ prio k x)) := by
  intro l
  induction l with
  | nil =>
    intro acc acc1 h
    left
    exact ⟨(Except.ok.inj h).symm, by simp⟩
  | cons t rest ih =>
    intro acc acc1 h
    unfold scanThreads at h
    cases hstep : scanStep env k O acc t with
    | error e => rw [hstep] at h; cases h
    | ok acc2 =>
      rw [hstep] at h
      simp only at h
      rcases scanStep_cases env k O acc acc2 t hstep with ⟨heq, hskip⟩ | ⟨heq, hlt, helig⟩
      · subst heq
        rcases ih acc2 acc1 h with ⟨h1, h2⟩ | ⟨T, pre, post, hl, h1, h2, h3, h4, h5⟩
        · left
          refine ⟨h1, fun x hx hex => ?_⟩
          rcases List.mem_cons.mp hx with rfl | hx
          · exact hskip hex
          · exact h2 x hx hex
        · right
          refine ⟨T, t :: pre, post, by simp [hl], h1, h2, h3, fun x hx hex => ?_, h5⟩
          rcases List.mem_cons.mp hx with rfl | hx
          · have := hskip hex
            omega
          · exact h4 x hx hex
      · subst heq
        rcases ih _ acc1 h with ⟨h1, h2⟩ | ⟨T, pre, post, hl, h1, h2, h3, h4, h5⟩
        · right
          exact ⟨t, [], rest, rfl, h1, hlt, helig, by simp, h2⟩
        · right
          simp only at h2
          refine ⟨T, t :: pre, post, by simp [hl], h1, by omega, h3, fun x hx hex => ?_, h5⟩
          rcases List.mem_cons.mp hx with rfl | hx
          · exact h2
          · exact h4 x hx hex

theorem scanThreads_ok (env : Env σ) (k : KernelState σ) (O : ObjectId) :
    ∀ (l : List ThreadId) (acc : Scan),
      (∀ t ∈ l, validWaitStatus (k.threads t).status = true) →
      ∃ acc1, scanThreads env k O l acc = Except.ok acc1 := by
  intro l
  induction l with
  | nil => intro acc _; exact ⟨acc, rfl⟩
  | cons t rest ih =>
    intro acc hv
    have ht : validWaitStatus (k.threads t).status = true := hv t (List.mem_cons_self _ _)
    have hstep : ∃ acc2, scanStep env k O acc t = Except.ok acc2 := by
      unfold scanStep
      simp only [ht, Bool.not_true, Bool.false_eq_true, if_false]
      split_ifs <;> exact ⟨_, rfl⟩
    obtain ⟨acc2, hacc2⟩ := hstep
    obtain ⟨acc1, hacc1⟩ := ih acc2 (fun x hx => hv x (List.mem_cons_of_mem _ hx))
    refine ⟨acc1, ?_⟩
    unfold scanThreads
    rw [hacc2]
    exact hacc1

/-- What a non-null result of the scheduler means: the registry splits around
the first occurrence of the returned thread, which is eligible; every eligible
thread before it has a strictly larger priority value, every eligible thread
after it a larger or equal one. -/
theorem GetHighestPriorityReadyThread_some (env : Env σ) (O : ObjectId) (k : KernelState σ)
    (T : ThreadId) (h : GetHighestPriorityReadyThread env O k = Except.ok (some T)) :
    ∃ pre post, (k.objects O).waiting_threads = pre ++ T :: post ∧
      prio k T < initialCandidatePriority env ∧ Eligible env O k T ∧
      (∀ x ∈ pre, Eligible env O k x → prio k T < prio k x) ∧
      (∀ x ∈ post, Eligible env O k x → prio k T ≤ prio k x) := by
  unfold GetHighestPriorityReadyThread at h
  cases hscan : scanThreads env k O (k.objects O).waiting_threads
      { candidate := none, candidate_priority := initialCandidatePriority env } with
  | error e => rw [hscan] at h; cases h
  | ok acc =>
    rw [hscan] at h
    have hc : acc.candidate = some T := Except.ok.inj h
    rcases scanThreads_spec env k O _ _ _ hscan with ⟨h1, _⟩ | ⟨T1, pre, post, hl, h1, h2, h3, h4, h5⟩
    · rw [h1] at hc
      cases hc
    · rw [h1] at hc
      have hT : T1 = T := Option.some.inj hc
      subst hT
      exact ⟨pre, post, hl, h2, h3, h4, h5⟩

/-- What the null result of the scheduler means: every eligible registered
thread has a priority value at or above the initial candidate priority. -/
theorem GetHighestPriorityReadyThread_none (env : Env σ) (O : ObjectId) (k : KernelState σ)
    (h : GetHighestPriorityReadyThread env O k = Except.ok none) :
    ∀ x ∈ (k.objects O).waiting_threads, Eligible env O k x →
      initialCandidatePriority env ≤ prio k x := by
  unfold GetHighestPriorityReadyThread at h
  cases hscan : scanThreads env k O (k.objects O).waiting_threads
      { candidate := none, candidate_priority := initialCandidatePriority env } with
  | error e => rw [hscan] at h; cases h
  | ok acc =>
    rw [hscan] at h
    have hc : acc.candidate = none := Except.ok.inj h
    rcases scanThreads_spec env k O _ _ _ hscan with ⟨_, h2⟩ | ⟨T1, pre, post, hl, h1, h2, h3, h4, h5⟩
    · exact h2
    · rw [h1] at hc
      cases hc

/-- The scheduler returns (no assertion fails) when every registered thread has
a valid wait status. -/
theorem GetHighestPriorityReadyThread_ok (env : Env σ) (O : ObjectId) (k : KernelState σ)
    (hv : ∀ t ∈ (k.objects O).waiting_threads, validWaitStatus (k.threads t).status = true) :
    ∃ r, GetHighestPriorityReadyThread env O k = Except.ok r := by
  obtain ⟨acc, hacc⟩ := scanThreads_ok env k O (k.objects O).waiting_threads
    { candidate := none, candidate_priority := initialCandidatePriority env } hv
  refine ⟨acc.candidate, ?_⟩
  unfold GetHighestPriorityReadyThread
  rw [hacc]

theorem initialCandidatePriority_eq (env : Env σ) (hL : env.THREADPRIO_LOWEST + 1 < 2 ^ 32) :
    initialCandidatePriority env = env.THREADPRIO_LOWEST + 1 := by
  unfold initialCandidatePriority
  exact Nat.mod_eq_of_lt hL

/-! ## Properties of the readiness scheduler -/

/-- C1: on a registry whose threads all have a valid wait status and a priority
not exceeding `THREADPRIO_LOWEST`, a thread returned by
`GetHighestPriorityReadyThread` is registered and its priority value is at most
that of every eligible registered thread; and when all registered threads are
eligible and have pairwise distinct priorities, the registered thread of
lowest priority value is the one returned (`THREADPRIO_LOWEST + 1` being
representable as a `u32`). -/
theorem GetHighestPriorityReadyThread_lowest_priority (env : Env σ) (O : ObjectId)
    (k : KernelState σ)
    (hstatus : ∀ t ∈ (k.objects O).waiting_threads, validWaitStatus (k.threads t).status = true)
    (hprio : ∀ t ∈ (k.objects O).waiting_threads, prio k t ≤ env.THREADPRIO_LOWEST) :
    (∀ T, GetHighestPriorityReadyThread env O k = Except.ok (some T) →
      T ∈ (k.objects O).waiting_threads ∧
      ∀ x ∈ (k.objects O).waiting_threads, Eligible env O k x → prio k T ≤ prio k x) ∧
    (env.THREADPRIO_LOWEST + 1 < 2 ^ 32 →
      (∀ x ∈ (k.objects O).waiting_threads, Eligible env O k x) →
      (∀ x ∈ (k.objects O).waiting_threads, ∀ y ∈ (k.objects O).waiting_threads,
        x ≠ y → prio k x ≠ prio k y) →
      ∀ T ∈ (k.objects O).waiting_threads,
        (∀ x ∈ (k.objects O).waiting_threads, prio k T ≤ prio k x) →
        GetHighestPriorityReadyThread env O k = Except.ok (some T)) := by
  have hfirst : ∀ T, GetHighestPriorityReadyThread env O k = Except.ok (some T) →
      T ∈ (k.objects O).waiting_threads ∧
      ∀ x ∈ (k.objects O).waiting_threads, Eligible env O k x → prio k T ≤ prio k x := by
    intro T h
    obtain ⟨pre, post, hl, _, _, hpre, hpost⟩ := GetHighestPriorityReadyThread_some env O k T h
    rw [hl]
    refine ⟨by simp, fun x hx hex => ?_⟩
    rcases List.mem_append.mp hx with hx | hx
    · exact Nat.le_of_lt (hpre x hx hex)
    · rcases List.mem_cons.mp hx with rfl | hx
      · exact Nat.le_refl _
      · exact hpost x hx hex
  refine ⟨hfirst, fun hL hall hdistinct T hT hmin => ?_⟩
  obtain ⟨r, hr⟩ := GetHighestPriorityReadyThread_ok env O k hstatus
  cases r with
  | none =>
    have h1 := GetHighestPriorityReadyThread_none env O k hr T hT (hall T hT)
    rw [initialCandidatePriority_eq env hL] at h1
    have h2 := hprio T hT
    omega
  | some T1 =>
    obtain ⟨hT1, hle⟩ := hfirst T1 hr
    have h1 : prio k T1 ≤ prio k T := hle T hT (hall T hT)
    have h2 : prio k T ≤ prio k T1 := hmin T1 hT1
    by_cases heq : T1 = T
    · rw [hr, heq]
    · exact absurd (Nat.le_antisymm h1 h2) (hdistinct T1 hT1 T hT heq)

/-- Threads of priorities 10, 5 and 7, all eligible, registered in that order:
the scheduler returns the thread of priority 5. -/
theorem GetHighestPriorityReadyThread_lowest_priority_witness :
    GetHighestPriorityReadyThread stickyEnv 0 distinctState = Except.ok (some 2) ∧
    2 ∈ (distinctState.objects 0).waiting_threads ∧
    ∀ x ∈ (distinctState.objects 0).waiting_threads, Eligible stickyEnv 0 distinctState x →
      prio distinctState 2 ≤ prio distinctState x :=
  have h := GetHighestPriorityReadyThread_lowest_priority stickyEnv 0 distinctState
    (by decide) (by decide)
  have hres : GetHighestPriorityReadyThread stickyEnv 0 distinctState = Except.ok (some 2) :=
    h.2 (by decide) (by decide) (by decide) 2 (by decide) (by decide)
  ⟨hres, h.1 2 hres⟩

/-- C2: the thread returned by `GetHighestPriorityReadyThread` is the first one,
in registration order, among the eligible threads of minimal priority value:
the registry splits as `pre ++ T :: post` with `T` not in `pre`, every eligible
thread of `pre` has a strictly larger priority value than `T` (so no eligible
thread of the same priority precedes it), and no eligible registered thread
has a smaller priority value. -/
theorem GetHighestPriorityReadyThread_earliest_on_tie (env : Env σ) (O : ObjectId)
    (k : KernelState σ) (T : ThreadId)
    (h : GetHighestPriorityReadyThread env O k = Except.ok (some T)) :
    ∃ pre post, (k.objects O).waiting_threads = pre ++ T :: post ∧ T ∉ pre ∧
      Eligible env O k T ∧
      (∀ x ∈ pre, Eligible env O k x → prio k T < prio k x) ∧
      (∀ x ∈ (k.objects O).waiting_threads, Eligible env O k x → prio k T ≤ prio k x) := by
  obtain ⟨pre, post, hl, _, helig, hpre, hpost⟩ := GetHighestPriorityReadyThread_some env O k T h
  refine ⟨pre, post, hl, fun hmem => ?_, helig, hpre, fun x hx hex => ?_⟩
  · exact absurd (hpre T hmem helig) (Nat.lt_irrefl _)
  · rw [hl] at hx
    rcases List.mem_append.mp hx with hx | hx
    · exact Nat.le_of_lt (hpre x hx hex)
    · rcases List.mem_cons.mp hx with rfl | hx
      · exact Nat.le_refl _
      · exact hpost x hx hex

/-- Threads 2 and 3 are eligible with the same priority 5 and thread 2 was
registered first: thread 2 is returned. -/
theorem GetHighestPriorityReadyThread_earliest_on_tie_witness :
    GetHighestPriorityReadyThread stickyEnv 0 tieState = Except.ok (some 2) ∧
    prio tieState 2 = prio tieState 3 ∧
    (tieState.objects 0).waiting_threads = [1, 2, 3] ∧
    ∃ pre post, (tieState.objects 0).waiting_threads = pre ++ 2 :: post ∧ 2 ∉ pre ∧
      Eligible stickyEnv 0 tieState 2 ∧
      (∀ x ∈ pre, Eligible stickyEnv 0 tieState x → prio tieState 2 < prio tieState x) ∧
      (∀ x ∈ (tieState.objects 0).waiting_threads, Eligible stickyEnv 0 tieState x →
        prio tieState 2 ≤ prio tieState x) :=
  ⟨rfl, rfl, rfl, GetHighestPriorityReadyThread_earliest_on_tie stickyEnv 0 tieState 2 rfl⟩

/-- C3: a thread returned by `GetHighestPriorityReadyThread` is one for which
`ShouldWait` of the queried object is false, whatever the registry and the
`ShouldWait` predicate. -/
theorem GetHighestPriorityReadyThread_not_ShouldWait (env : Env σ) (O : ObjectId)
    (k : KernelState σ) (T : ThreadId)
    (h : GetHighestPriorityReadyThread env O k = Except.ok (some T)) :
    env.ShouldWait k.res O (some T) = false := by
  obtain ⟨_, _, _, _, helig, _, _⟩ := GetHighestPriorityReadyThread_some env O k T h
  exact helig.1

/-- The scheduler returns thread 2 on object 0, whose `ShouldWait` is false. -/
theorem GetHighestPriorityReadyThread_not_ShouldWait_witness :
    GetHighestPriorityReadyThread stickyEnv 0 tieState = Except.ok (some 2) ∧
    stickyEnv.ShouldWait tieState.res 0 (some 2) = false :=
  ⟨rfl, GetHighestPriorityReadyThread_not_ShouldWait stickyEnv 0 tieState 2 rfl⟩

/-- C4: a thread in wait-all mode (status `THREADSTATUS_WAIT_SYNCH_ALL`) that
`GetHighestPriorityReadyThread` returns has `ShouldWait` false on every object
of its wait set, not only on the queried object. -/
theorem GetHighestPriorityReadyThread_wait_all (env : Env σ) (O : ObjectId)
    (k : KernelState σ) (T : ThreadId)
    (h : GetHighestPriorityReadyThread env O k = Except.ok (some T))
    (hall : (k.threads T).status = ThreadStatus.THREADSTATUS_WAIT_SYNCH_ALL) :
    ∀ object ∈ (k.threads T).wait_objects, env.ShouldWait k.res object (some T) = false := by
  obtain ⟨_, _, _, _, helig, _, _⟩ := GetHighestPriorityReadyThread_some env O k T h
  exact helig.2 hall

/-- Thread 7 waits for all of objects 1 and 2.  With both ready, querying
object 1 returns it and both objects do not block; with object 1 ready and
object 2 not, querying object 1 returns no thread. -/
theorem GetHighestPriorityReadyThread_wait_all_witness :
    GetHighestPriorityReadyThread stickyEnv 1 (waitAllState []) = Except.ok (some 7) ∧
    (∀ object ∈ ((waitAllState []).threads 7).wait_objects,
      stickyEnv.ShouldWait (waitAllState []).res object (some 7) = false) ∧
    stickyEnv.ShouldWait (waitAllState [2]).res 1 (some 7) = false ∧
    GetHighestPriorityReadyThread stickyEnv 1 (waitAllState [2]) = Except.ok none :=
  ⟨rfl, GetHighestPriorityReadyThread_wait_all stickyEnv 1 (waitAllState []) 7 rfl rfl, rfl, rfl⟩

/-! ## Effect of the steps of the wakeup protocol -/

theorem acquireAll_frame (env : Env σ) (t : ThreadId) :
    ∀ (l : List ObjectId) (k k1 : KernelState σ), acquireAll env t l k = Except.ok k1 →
      k1.threads = k.threads ∧ k1.objects = k.objects ∧
      k1.log = k.log ++ l.map (fun object => Event.Acquire object t) := by
  intro l
  induction l with
  | nil =>
    intro k k1 h
    have hk : k = k1 := Except.ok.inj h
    subst hk
    simp
  | cons o rest ih =>
    intro k k1 h
    unfold acquireAll at h
    split_ifs at h
    obtain ⟨h1, h2, h3⟩ := ih _ _ h
    refine ⟨h1, h2, ?_⟩
    rw [h3]
    simp [Acquire]

theorem claimStep_frame (env : Env σ) (O : ObjectId) (t : ThreadId) (k k1 : KernelState σ)
    (h : claimStep env O t k = Except.ok k1) :
    k1.threads = k.threads ∧ k1.objects = k.objects ∧
    k1.log = k.log ++ (claimedObjects k O t).map (fun object => Event.Acquire object t) := by
  unfold claimStep at h
  unfold claimedObjects
  by_cases hall : (k.threads t).status = ThreadStatus.THREADSTATUS_WAIT_SYNCH_ALL
  · simp only [IsSleepingOnWaitAll, hall, beq_self_eq_true, Bool.not_true, Bool.false_eq_true,
      if_false, if_true] at h ⊢
    exact acquireAll_frame env t _ _ _ h
  · have hb : ((k.threads t).status == ThreadStatus.THREADSTATUS_WAIT_SYNCH_ALL) = false := by
      simpa using hall
    simp only [IsSleepingOnWaitAll, hb, Bool.not_false, if_true] at h
    have hk : Acquire env O t k = k1 := Except.ok.inj h
    subst hk
    simp [hall, Acquire]

theorem RemoveWaitingThread_objects (O : ObjectId) (t : ThreadId) (k : KernelState σ)
    (P : ObjectId) :
    ((RemoveWaitingThread O t k).objects P).waiting_threads =
      if P = O then ((k.objects P).waiting_threads).erase t else (k.objects P).waiting_threads := by
  unfold RemoveWaitingThread
  by_cases hmem : t ∈ (k.objects O).waiting_threads
  · by_cases hP : P = O
    · subst hP
      simp [hmem, KernelState.setObject, KernelState.record]
    · simp [hmem, hP, KernelState.setObject, KernelState.record]
  · by_cases hP : P = O
    · subst hP
      simp [hmem, KernelState.record, List.erase_of_not_mem hmem]
    · simp [hmem, hP, KernelState.record]

theorem RemoveWaitingThread_frame (O : ObjectId) (t : ThreadId) (k : KernelState σ) :
    (RemoveWaitingThread O t k).threads = k.threads ∧
    (RemoveWaitingThread O t k).res = k.res ∧
    (RemoveWaitingThread O t k).log = k.log ++ [Event.RemoveWaitingThread O t] := by
  unfold RemoveWaitingThread
  by_cases hmem : t ∈ (k.objects O).waiting_threads <;>
    simp [hmem, KernelState.setObject, KernelState.record]

theorem AddWaitingThread_objects (O : ObjectId) (t : ThreadId) (k : KernelState σ)
    (P : ObjectId) :
    ((AddWaitingThread O t k).objects P).waiting_threads =
      if P = O ∧ t ∉ (k.objects O).waiting_threads then (k.objects P).waiting_threads ++ [t]
      else (k.objects P).waiting_threads := by
  unfold AddWaitingThread
  by_cases hmem : t ∈ (k.objects O).waiting_threads
  · simp [hmem]
  · by_cases hP : P = O
    · subst hP
      simp [hmem, KernelState.setObject]
    · simp [hmem, hP, KernelState.setObject]

theorem AddWaitingThread_frame (O : ObjectId) (t : ThreadId) (k : KernelState σ) :
    (AddWaitingThread O t k).threads = k.threads ∧ (AddWaitingThread O t k).res = k.res := by
  unfold AddWaitingThread
  by_cases hmem : t ∈ (k.objects O).waiting_threads <;> simp [hmem, KernelState.setObject]

theorem removeFromAll_frame (t : ThreadId) :
    ∀ (l : List ObjectId) (k : KernelState σ),
      (removeFromAll t l k).threads = k.threads ∧ (removeFromAll t l k).res = k.res ∧
      (removeFromAll t l k).log =
        k.log ++ l.map (fun object => Event.RemoveWaitingThread object t) := by
  intro l
  induction l with
  | nil => intro k; simp [removeFromAll]
  | cons o rest ih =>
    intro k
    obtain ⟨h1, h2, h3⟩ := ih (RemoveWaitingThread o t k)
    obtain ⟨g1, g2, g3⟩ := RemoveWaitingThread_frame o t k
    unfold removeFromAll
    refine ⟨by rw [h1, g1], by rw [h2, g2], ?_⟩
    rw [h3, g3]
    simp

theorem removeFromAll_objects (t : ThreadId) :
    ∀ (l : List ObjectId) (k : KernelState σ) (P : ObjectId),
      ((removeFromAll t l k).objects P).waiting_threads =
        eraseTimes t (l.count P) (k.objects P).waiting_threads := by
  intro l
  induction l with
  | nil => intro k P; simp [removeFromAll, eraseTimes]
  | cons o rest ih =>
    intro k P
    unfold removeFromAll
    rw [ih, RemoveWaitingThread_objects]
    by_cases hP : P = o
    · subst hP
      simp [eraseTimes]
    · have hne : ¬ (o = P) := fun h => hP h.symm
      simp [hP, List.count_cons, hne]

theorem WakeupWaitingThread_some (env : Env σ) (O : ObjectId) (t : ThreadId)
    (k k1 : KernelState σ) (h : WakeupWaitingThread env O (some t) k = Except.ok k1) :
    env.ShouldWait k.res O (some t) = false ∧
    ∃ kc, claimStep env O t k = Except.ok kc ∧ k1 = finishWakeup env O t kc := by
  unfold WakeupWaitingThread at h
  cases hsw : env.ShouldWait k.res O (some t) with
  | true => simp [hsw] at h
  | false =>
    simp only [hsw, Bool.false_eq_true, if_false] at h
    cases hc : claimStep env O t k with
    | error e => rw [hc] at h; cases h
    | ok kc =>
      rw [hc] at h
      exact ⟨rfl, kc, rfl, (Except.ok.inj h).symm⟩

theorem detached_state (t : ThreadId) (kc : KernelState σ) :
    (CancelWakeupTimer t (clearWaitObjects t
        (removeFromAll t (kc.threads t).wait_objects kc))).threads t =
      { kc.threads t with wait_objects := [], wakeup_timer_armed := false } ∧
    (∀ x, x ≠ t → (CancelWakeupTimer t (clearWaitObjects t
        (removeFromAll t (kc.threads t).wait_objects kc))).threads x = kc.threads x) ∧
    (CancelWakeupTimer t (clearWaitObjects t
        (removeFromAll t (kc.threads t).wait_objects kc))).objects =
      (removeFromAll t (kc.threads t).wait_objects kc).objects ∧
    (CancelWakeupTimer t (clearWaitObjects t
        (removeFromAll t (kc.threads t).wait_objects kc))).res = kc.res ∧
    (CancelWakeupTimer t (clearWaitObjects t
        (removeFromAll t (kc.threads t).wait_objects kc))).log =
      kc.log ++ (kc.threads t).wait_objects.map (fun object => Event.RemoveWaitingThread object t)
        ++ [Event.ClearWaitObjects t, Event.CancelWakeupTimer t] := by
  obtain ⟨hf, hr, hl⟩ := removeFromAll_frame t (kc.threads t).wait_objects kc
  refine ⟨?_, ?_, ?_, ?_, ?_⟩
  · simp [CancelWakeupTimer, clearWaitObjects, KernelState.setThread, KernelState.record, hf]
  · intro x hx
    simp [CancelWakeupTimer, clearWaitObjects, KernelState.setThread, KernelState.record, hf, hx]
  · simp [CancelWakeupTimer, clearWaitObjects, KernelState.setThread, KernelState.record]
  · simp [CancelWakeupTimer, clearWaitObjects, KernelState.setThread, KernelState.record, hr]
  · simp [CancelWakeupTimer, clearWaitObjects, KernelState.setThread, KernelState.record, hl]

theorem runWakeupCallback_none (env : Env σ) (O : ObjectId) (t : ThreadId) (index : Nat)
    (k : KernelState σ) (h : (k.threads t).wakeup_callback = none) :
    runWakeupCallback env O t index k = (true, k) := by
  unfold runWakeupCallback
  rw [h]

theorem runWakeupCallback_some (env : Env σ) (O : ObjectId) (t : ThreadId) (index : Nat)
    (k : KernelState σ) (cb : CallbackId) (h : (k.threads t).wakeup_callback = some cb) :
    runWakeupCallback env O t index k =
      ((env.callbacks cb ThreadWakeupReason.Signal t O index k).resume,
       { applyActions (env.callbacks cb ThreadWakeupReason.Signal t O index k).actions k with
         res := (env.callbacks cb ThreadWakeupReason.Signal t O index k).res,
         log := k.log ++ [Event.WakeupCallback ThreadWakeupReason.Signal t O index
           (env.callbacks cb ThreadWakeupReason.Signal t O index k).resume] }) := by
  unfold runWakeupCallback
  rw [h]

theorem applyAction_thread_fields (a : CallbackAction) (k : KernelState σ) (x : ThreadId) :
    ((applyAction a k).threads x).status = (k.threads x).status ∧
    ((applyAction a k).threads x).current_priority = (k.threads x).current_priority ∧
    ((applyAction a k).threads x).wakeup_callback = (k.threads x).wakeup_callback := by
  cases a with
  | AddWaitingThread object t =>
    unfold applyAction
    rw [(AddWaitingThread_frame object t k).1]
    exact ⟨rfl, rfl, rfl⟩
  | RemoveWaitingThread object t =>
    unfold applyAction
    rw [(RemoveWaitingThread_frame object t k).1]
    exact ⟨rfl, rfl, rfl⟩
  | SetWaitObjects t wait_objects =>
    unfold applyAction
    by_cases hx : x = t
    · subst hx
      simp [KernelState.setThread]
    · simp [KernelState.setThread, hx]
  | ArmWakeupTimer t =>
    unfold applyAction
    by_cases hx : x = t
    · subst hx
      simp [KernelState.setThread]
    · simp [KernelState.setThread, hx]

/-- The actions of a callback change no thread's status, priority or callback. -/
theorem applyActions_thread_fields :
    ∀ (actions : List CallbackAction) (k : KernelState σ) (x : ThreadId),
      ((applyActions actions k).threads x).status = (k.threads x).status ∧
      ((applyActions actions k).threads x).current_priority = (k.threads x).current_priority ∧
      ((applyActions actions k).threads x).wakeup_callback = (k.threads x).wakeup_callback := by
  intro actions
  induction actions with
  | nil => intro k x; exact ⟨rfl, rfl, rfl⟩
  | cons a rest ih =>
    intro k x
    unfold applyActions
    obtain ⟨h1, h2, h3⟩ := ih (applyAction a k) x
    obtain ⟨g1, g2, g3⟩ := applyAction_thread_fields a k x
    exact ⟨h1.trans g1, h2.trans g2, h3.trans g3⟩

theorem applyAction_of_thread_ne (a : CallbackAction) (k : KernelState σ) (T : ThreadId)
    (ha : a.thread ≠ T) :
    (applyAction a k).threads T = k.threads T ∧
    ∀ P, (T ∈ ((applyAction a k).objects P).waiting_threads ↔
      T ∈ (k.objects P).waiting_threads) := by
  cases a with
  | AddWaitingThread object t =>
    have hne : T ≠ t := fun h => ha h.symm
    unfold applyAction
    refine ⟨by rw [(AddWaitingThread_frame object t k).1], fun P => ?_⟩
    rw [AddWaitingThread_objects]
    split_ifs
    · simp [hne]
    · rfl
  | RemoveWaitingThread object t =>
    have hne : T ≠ t := fun h => ha h.symm
    unfold applyAction
    refine ⟨by rw [(RemoveWaitingThread_frame object t k).1], fun P => ?_⟩
    rw [RemoveWaitingThread_objects]
    split_ifs
    · exact List.mem_erase_of_ne hne
    · rfl
  | SetWaitObjects t wait_objects =>
    have hne : T ≠ t := fun h => ha h.symm
    unfold applyAction
    exact ⟨by simp [KernelState.setThread, hne], fun P => by simp [KernelState.setThread]⟩
  | ArmWakeupTimer t =>
    have hne : T ≠ t := fun h => ha h.symm
    unfold applyAction
    exact ⟨by simp [KernelState.setThread, hne], fun P => by simp [KernelState.setThread]⟩

/-- Actions that are about other threads leave the record of `T` and its
membership in every registry as they are. -/
theorem applyActions_of_thread_ne (T : ThreadId) :
    ∀ (actions : List CallbackAction) (k : KernelState σ),
      (∀ a ∈ actions, a.thread ≠ T) →
      (applyActions actions k).threads T = k.threads T ∧
      ∀ P, (T ∈ ((applyActions actions k).objects P).waiting_threads ↔
        T ∈ (k.objects P).waiting_threads) := by
  intro actions
  induction actions with
  | nil => intro k _; exact ⟨rfl, fun _ => Iff.rfl⟩
  | cons a rest ih =>
    intro k h
    unfold applyActions
    obtain ⟨h1, h2⟩ := ih (applyAction a k) (fun b hb => h b (List.mem_cons_of_mem _ hb))
    obtain ⟨g1, g2⟩ := applyAction_of_thread_ne a k T (h a (List.mem_cons_self _ _))
    exact ⟨h1.trans g1, fun P => (h2 P).trans (g2 P)⟩

/-- Actions that register no thread on `O` do not lengthen the registry of `O`. -/
theorem applyActions_registry_length (O : ObjectId) :
    ∀ (actions : List CallbackAction) (k : KernelState σ),
      (∀ a ∈ actions, ∀ t, a ≠ CallbackAction.AddWaitingThread O t) →
      ((applyActions actions k).objects O).waiting_threads.length ≤
        (k.objects O).waiting_threads.length := by
  intro actions
  induction actions with
  | nil => intro k _; exact Nat.le_refl _
  | cons a rest ih =>
    intro k h
    unfold applyActions
    refine Nat.le_trans (ih (applyAction a k) (fun b hb => h b (List.mem_cons_of_mem _ hb))) ?_
    have ha := h a (List.mem_cons_self _ _)
    cases a with
    | AddWaitingThread object t =>
      unfold applyAction
      rw [AddWaitingThread_objects]
      have hne : ¬ (O = object) := fun heq => ha t (by rw [heq])
      simp [hne]
    | RemoveWaitingThread object t =>
      unfold applyAction
      rw [RemoveWaitingThread_objects]
      split_ifs
      · exact (List.erase_sublist t _).length_le
      · exact Nat.le_refl _
    | SetWaitObjects t wait_objects => simp [applyAction, KernelState.setThread]
    | ArmWakeupTimer t => simp [applyAction, KernelState.setThread]

theorem detachedState_fields (t : ThreadId) (kc : KernelState σ) :
    (detachedState t kc).threads t =
      { kc.threads t with wait_objects := [], wakeup_timer_armed := false } ∧
    (∀ x, x ≠ t → (detachedState t kc).threads x = kc.threads x) ∧
    (detachedState t kc).objects = (removeFromAll t (kc.threads t).wait_objects kc).objects ∧
    (detachedState t kc).res = kc.res ∧
    (detachedState t kc).log =
      kc.log ++ (kc.threads t).wait_objects.map (fun object => Event.RemoveWaitingThread object t)
        ++ [Event.ClearWaitObjects t, Event.CancelWakeupTimer t] :=
  detached_state t kc

/-- The state after `WakeupWaitingThread` in terms of the state `kc` after the
claim step: the callback, if any, is invoked on the detached state, its
actions and resource state take effect, and the thread is resumed unless the
callback declined. -/
theorem finishWakeup_unfold (env : Env σ) (O : ObjectId) (t : ThreadId) (kc : KernelState σ) :
    finishWakeup env O t kc =
      match callbackOutcome env O t kc with
      | none => ResumeFromWait t (detachedState t kc)
      | some r =>
        if r.resume then
          ResumeFromWait t
            { applyActions r.actions (detachedState t kc) with
              res := r.res,
              log := (detachedState t kc).log ++
                [Event.WakeupCallback ThreadWakeupReason.Signal t O
                  (GetWaitObjectIndex (kc.threads t) O) r.resume] }
        else
          { applyActions r.actions (detachedState t kc) with
            res := r.res,
            log := (detachedState t kc).log ++
              [Event.WakeupCallback ThreadWakeupReason.Signal t O
                (GetWaitObjectIndex (kc.threads t) O) r.resume] } := by
  have h1 := (detachedState_fields t kc).1
  unfold finishWakeup callbackOutcome
  simp only
  change (if (runWakeupCallback env O t (GetWaitObjectIndex (kc.threads t) O)
      (detachedState t kc)).1 = true then
        ResumeFromWait t (runWakeupCallback env O t (GetWaitObjectIndex (kc.threads t) O)
          (detachedState t kc)).2
      else (runWakeupCallback env O t (GetWaitObjectIndex (kc.threads t) O)
          (detachedState t kc)).2) = _
  cases hcb : (kc.threads t).wakeup_callback with
  | none =>
    have hcb4 : ((detachedState t kc).threads t).wakeup_callback = none := by rw [h1]; exact hcb
    rw [runWakeupCallback_none env O t _ _ hcb4]
    simp
  | some cb =>
    have hcb4 : ((detachedState t kc).threads t).wakeup_callback = some cb := by
      rw [h1]; exact hcb
    rw [runWakeupCallback_some env O t _ _ cb hcb4]

/-- The calls logged by `WakeupWaitingThread` after the claim step. -/
theorem finishWakeup_log (env : Env σ) (O : ObjectId) (t : ThreadId) (kc : KernelState σ) :
    (finishWakeup env O t kc).log = kc.log ++ wakeupEvents env O t kc := by
  have h5 := (detachedState_fields t kc).2.2.2.2
  rw [finishWakeup_unfold]
  unfold wakeupEvents callbackResult
  cases hout : callbackOutcome env O t kc with
  | none => simp [ResumeFromWait, KernelState.setThread, KernelState.record, h5]
  | some r =>
    simp only
    rcases Bool.eq_false_or_eq_true r.resume with hb | hb <;>
      simp [hb, ResumeFromWait, KernelState.setThread, KernelState.record, h5]

/-- The registries and the thread records after `WakeupWaitingThread`: those of
the detached state after the actions of the callback, the woken thread being
made ready unless its callback declined. -/
theorem finishWakeup_after (env : Env σ) (O : ObjectId) (t : ThreadId) (kc : KernelState σ) :
    (finishWakeup env O t kc).objects =
      (applyActions (callbackActions env O t kc) (detachedState t kc)).objects ∧
    (∀ x, x ≠ t → (finishWakeup env O t kc).threads x =
      (applyActions (callbackActions env O t kc) (detachedState t kc)).threads x) ∧
    (finishWakeup env O t kc).threads t =
      { (applyActions (callbackActions env O t kc) (detachedState t kc)).threads t with
        status := if callbackResult env O t kc = some false then
            ((applyActions (callbackActions env O t kc) (detachedState t kc)).threads t).status
          else ThreadStatus.THREADSTATUS_READY } := by
  rw [finishWakeup_unfold]
  unfold callbackActions callbackResult
  cases hout : callbackOutcome env O t kc with
  | none =>
    simp only [applyActions]
    refine ⟨by simp [ResumeFromWait, KernelState.setThread, KernelState.record], ?_, ?_⟩
    · intro x hx
      simp [ResumeFromWait, KernelState.setThread, KernelState.record, hx]
    · simp [ResumeFromWait, KernelState.setThread, KernelState.record]
  | some r =>
    simp only
    cases hb : r.resume
    · simp
    · refine ⟨by simp [ResumeFromWait, KernelState.setThread, KernelState.record], ?_, ?_⟩
      · intro x hx
        simp [ResumeFromWait, KernelState.setThread, KernelState.record, hx]
      · simp [ResumeFromWait, KernelState.setThread, KernelState.record]

/-- The status of the woken thread after `WakeupWaitingThread`. -/
theorem finishWakeup_status (env : Env σ) (O : ObjectId) (t : ThreadId) (kc : KernelState σ) :
    ((finishWakeup env O t kc).threads t).status =
      if callbackResult env O t kc = some false then (kc.threads t).status
      else ThreadStatus.THREADSTATUS_READY := by
  rw [(finishWakeup_after env O t kc).2.2]
  have hst := (applyActions_thread_fields (callbackActions env O t kc)
    (detachedState t kc) t).1
  simp only
  rw [hst, (detachedState_fields t kc).1]

theorem finishWakeup_res (env : Env σ) (O : ObjectId) (t : ThreadId) (kc : KernelState σ) :
    (finishWakeup env O t kc).res =
      match callbackOutcome env O t kc with
      | none => kc.res
      | some r => r.res := by
  have h4 := (detachedState_fields t kc).2.2.2.1
  rw [finishWakeup_unfold]
  cases hout : callbackOutcome env O t kc with
  | none => simp [ResumeFromWait, KernelState.setThread, KernelState.record, h4]
  | some r =>
    simp only
    cases hb : r.resume <;> simp [ResumeFromWait, KernelState.setThread, KernelState.record]

/-- The state after `WakeupWaitingThread`, field by field, when the callback of
the thread, if any, takes no action. -/
theorem finishWakeup_fields (env : Env σ) (O : ObjectId) (t : ThreadId) (kc : KernelState σ)
    (hq : callbackActions env O t kc = []) :
    (finishWakeup env O t kc).threads t =
      { kc.threads t with
        wait_objects := []
        wakeup_timer_armed := false
        status := if callbackResult env O t kc = some false then (kc.threads t).status
                  else ThreadStatus.THREADSTATUS_READY } ∧
    (∀ x, x ≠ t → (finishWakeup env O t kc).threads x = kc.threads x) ∧
    (finishWakeup env O t kc).objects =
      (removeFromAll t (kc.threads t).wait_objects kc).objects := by
  obtain ⟨h1, h2, h3, _, _⟩ := detachedState_fields t kc
  obtain ⟨f1, f2, f3⟩ := finishWakeup_after env O t kc
  rw [hq] at f1 f2 f3
  simp only [applyActions] at f1 f2 f3
  refine ⟨?_, fun x hx => by rw [f2 x hx, h2 x hx], by rw [f1, h3]⟩
  rw [f3, h1]

theorem finishWakeup_objects (env : Env σ) (O : ObjectId) (t : ThreadId) (kc : KernelState σ)
    (hq : callbackActions env O t kc = []) (P : ObjectId) :
    ((finishWakeup env O t kc).objects P).waiting_threads =
      eraseTimes t ((kc.threads t).wait_objects.count P) (kc.objects P).waiting_threads := by
  rw [(finishWakeup_fields env O t kc hq).2.2, removeFromAll_objects]

theorem detachedState_objects (t : ThreadId) (kc : KernelState σ) (P : ObjectId) :
    ((detachedState t kc).objects P).waiting_threads =
      eraseTimes t ((kc.threads t).wait_objects.count P) (kc.objects P).waiting_threads := by
  rw [(detachedState_fields t kc).2.2.1, removeFromAll_objects]

/-- Callbacks that take no action, whatever the thread and the object. -/
theorem callbackActions_of_quiet (env : Env σ) (O : ObjectId) (t : ThreadId)
    (kc : KernelState σ)
    (hquiet : ∀ cb index kd,
      (env.callbacks cb ThreadWakeupReason.Signal t O index kd).actions = []) :
    callbackActions env O t kc = [] := by
  unfold callbackActions callbackOutcome
  cases (kc.threads t).wakeup_callback with
  | none => rfl
  | some cb => exact hquiet cb _ _

theorem eraseTimes_mem_of_ne (t x : ThreadId) (hx : x ≠ t) :
    ∀ (n : Nat) (l : List ThreadId), x ∈ eraseTimes t n l ↔ x ∈ l := by
  intro n
  induction n with
  | zero => intro l; rfl
  | succ n ih =>
    intro l
    unfold eraseTimes
    rw [ih (l.erase t)]
    exact List.mem_erase_of_ne hx

theorem eraseTimes_sublist (t : ThreadId) :
    ∀ (n : Nat) (l : List ThreadId), List.Sublist (eraseTimes t n l) l := by
  intro n
  induction n with
  | zero => intro l; exact List.Sublist.refl l
  | succ n ih =>
    intro l
    unfold eraseTimes
    exact (ih (l.erase t)).trans (List.erase_sublist t l)

theorem eraseTimes_filter (t : ThreadId) :
    ∀ (n : Nat) (l : List ThreadId),
      (eraseTimes t n l).filter (fun x => decide (x ≠ t)) =
        l.filter (fun x => decide (x ≠ t)) := by
  intro n
  induction n with
  | zero => intro l; rfl
  | succ n ih =>
    intro l
    unfold eraseTimes
    rw [ih (l.erase t), ← List.erase_filter]
    apply List.erase_of_not_mem
    simp

theorem eraseTimes_of_not_mem (t : ThreadId) :
    ∀ (n : Nat) (l : List ThreadId), t ∉ l → eraseTimes t n l = l := by
  intro n
  induction n with
  | zero => intro l _; rfl
  | succ n ih =>
    intro l hl
    unfold eraseTimes
    rw [List.erase_of_not_mem hl]
    exact ih l hl

theorem eraseTimes_nodup (t : ThreadId) (n : Nat) (l : List ThreadId) (hl : l.Nodup)
    (hn : 1 ≤ n) : eraseTimes t n l = l.erase t := by
  cases n with
  | zero => omega
  | succ n =>
    unfold eraseTimes
    exact eraseTimes_of_not_mem t n _ (fun hmem => ((List.Nodup.mem_erase_iff hl).mp hmem).1 rfl)

/-! ## Properties of the wakeup protocol -/

/-- C5 (amended): when `WakeupWaitingThread(T)` completes on duplicate-free
registries, the state in which the resumption callback is invoked (the final
state when `T` carries no callback) has `T` in the registry of no wait object
that was in `T.wait_objects` before the call, `T.wait_objects` empty and the
wakeup timer of `T` cancelled, and the cancel call was made; the same holds of
the state in which the call completes, whatever the callback returns, provided
the callback takes no action on `T` (it does not register `T`, rewrite its
wait set or arm its timer). -/
theorem WakeupWaitingThread_detaches (env : Env σ) (O : ObjectId) (T : ThreadId)
    (k k1 : KernelState σ)
    (hnodup : ∀ P ∈ (k.threads T).wait_objects, (k.objects P).waiting_threads.Nodup)
    (h : WakeupWaitingThread env O (some T) k = Except.ok k1) :
    ∃ kc, claimStep env O T k = Except.ok kc ∧
      ((∀ P ∈ (k.threads T).wait_objects,
          T ∉ ((detachedState T kc).objects P).waiting_threads) ∧
        ((detachedState T kc).threads T).wait_objects = [] ∧
        ((detachedState T kc).threads T).wakeup_timer_armed = false) ∧
      (∃ evs, k1.log = k.log ++ evs ∧ Event.CancelWakeupTimer T ∈ evs) ∧
      ((∀ a ∈ callbackActions env O T kc, a.thread ≠ T) →
        (∀ P ∈ (k.threads T).wait_objects, T ∉ (k1.objects P).waiting_threads) ∧
        (k1.threads T).wait_objects = [] ∧
        (k1.threads T).wakeup_timer_armed = false) := by
  obtain ⟨_, kc, hc, hk1⟩ := WakeupWaitingThread_some env O T k k1 h
  obtain ⟨hth, hob, hlog⟩ := claimStep_frame env O T k kc hc
  obtain ⟨d1, _, _, _, _⟩ := detachedState_fields T kc
  subst hk1
  have hgone : ∀ P ∈ (k.threads T).wait_objects,
      T ∉ ((detachedState T kc).objects P).waiting_threads := by
    intro P hP
    rw [detachedState_objects, hth, hob,
      eraseTimes_nodup T _ _ (hnodup P hP) (List.count_pos_iff.mpr hP)]
    exact fun hmem => ((List.Nodup.mem_erase_iff (hnodup P hP)).mp hmem).1 rfl
  refine ⟨kc, hc, ⟨hgone, by rw [d1], by rw [d1]⟩, ?_, fun hact => ?_⟩
  · refine ⟨(claimedObjects k O T).map (fun object => Event.Acquire object T) ++
      wakeupEvents env O T kc, ?_, ?_⟩
    · rw [finishWakeup_log, hlog, List.append_assoc]
    · simp [wakeupEvents]
  · obtain ⟨f1, _, f3⟩ := finishWakeup_after env O T kc
    obtain ⟨a1, a2⟩ := applyActions_of_thread_ne T (callbackActions env O T kc)
      (detachedState T kc) hact
    refine ⟨fun P hP => ?_, ?_, ?_⟩
    · rw [f1, a2 P]
      exact hgone P hP
    · rw [f3, a1, d1]
    · rw [f3, a1, d1]

/-- Thread 7 is woken on object 1 with no callback, with a callback that
returns true (`1`) and with one that returns false (`0`), none of which takes
an action: each time it is gone from the registries of objects 1 and 2, its
wait set is empty and its timer is cancelled. -/
theorem WakeupWaitingThread_detaches_witness :
    (∃ k1, WakeupWaitingThread stickyEnv 1 (some 7) (wakeState none) = Except.ok k1 ∧
      (∀ P ∈ [1, 2], 7 ∉ (k1.objects P).waiting_threads) ∧
      (k1.threads 7).wait_objects = [] ∧ (k1.threads 7).wakeup_timer_armed = false) ∧
    (∃ k1, WakeupWaitingThread stickyEnv 1 (some 7) (wakeState (some 1)) = Except.ok k1 ∧
      (∀ P ∈ [1, 2], 7 ∉ (k1.objects P).waiting_threads) ∧
      (k1.threads 7).wait_objects = [] ∧ (k1.threads 7).wakeup_timer_armed = false) ∧
    (∃ k1, WakeupWaitingThread stickyEnv 1 (some 7) (wakeState (some 0)) = Except.ok k1 ∧
      (∀ P ∈ [1, 2], 7 ∉ (k1.objects P).waiting_threads) ∧
      (k1.threads 7).wait_objects = [] ∧ (k1.threads 7).wakeup_timer_armed = false) :=
  have hquiet : ∀ kc a, a ∈ callbackActions stickyEnv 1 7 kc → a.thread ≠ 7 := by
    intro kc a ha
    rw [callbackActions_of_quiet stickyEnv 1 7 kc (fun _ _ _ => rfl)] at ha
    cases ha
  ⟨⟨_, rfl,
      match WakeupWaitingThread_detaches stickyEnv 1 7 (wakeState none) _ (by decide) rfl with
      | ⟨kc, _, _, _, hfin⟩ => hfin (hquiet kc)⟩,
    ⟨_, rfl,
      match WakeupWaitingThread_detaches stickyEnv 1 7 (wakeState (some 1)) _ (by decide) rfl with
      | ⟨kc, _, _, _, hfin⟩ => hfin (hquiet kc)⟩,
    ⟨_, rfl,
      match WakeupWaitingThread_detaches stickyEnv 1 7 (wakeState (some 0)) _ (by decide) rfl with
      | ⟨kc, _, _, _, hfin⟩ => hfin (hquiet kc)⟩⟩

/-- C5 as stated fails: thread 1 waits for object 0 on a duplicate-free registry
and carries a callback that declines the resumption and re-arms the wait on
the same object.  When `WakeupWaitingThread` completes, thread 1 is in the
registry of object 0 again, its wait set is `[0]` and its timer is armed. -/
theorem WakeupWaitingThread_rearmed_by_callback :
    (rearmState.threads 1).wait_objects = [0] ∧
    (rearmState.objects 0).waiting_threads = [1] ∧
    ∃ k1, WakeupWaitingThread rearmEnv 0 (some 1) rearmState = Except.ok k1 ∧
      (k1.objects 0).waiting_threads = [1] ∧
      (k1.threads 1).wait_objects = [0] ∧
      (k1.threads 1).wakeup_timer_armed = true ∧
      (k1.threads 1).status = ThreadStatus.THREADSTATUS_WAIT_SYNCH_ANY :=
  ⟨rfl, rfl, _, rfl, rfl, rfl, rfl, rfl⟩

theorem wakeupEvents_no_acquire (env : Env σ) (O : ObjectId) (T : ThreadId)
    (kc : KernelState σ) : ∀ e ∈ wakeupEvents env O T kc, isAcquire e = false := by
  intro e he
  unfold wakeupEvents at he
  simp only [List.mem_append, List.mem_map, List.mem_cons, List.mem_singleton,
    List.not_mem_nil, or_false] at he
  rcases he with ((⟨P, _, rfl⟩ | rfl | rfl) | he) | he
  · rfl
  · rfl
  · rfl
  · cases hr : callbackResult env O T kc with
    | none => simp [hr] at he
    | some b =>
      simp only [hr, List.mem_singleton] at he
      subst he
      rfl
  · split_ifs at he
    · simp at he
    · simp only [List.mem_singleton] at he
      subst he
      rfl

theorem WakeupWaitingThread_registry (env : Env σ) (O : ObjectId) (T : ThreadId)
    (k k1 : KernelState σ) (h : WakeupWaitingThread env O (some T) k = Except.ok k1)
    (hquiet : ∀ cb index kd,
      (env.callbacks cb ThreadWakeupReason.Signal T O index kd).actions = [])
    (hnodup : (k.objects O).waiting_threads.Nodup) (hT : O ∈ (k.threads T).wait_objects) :
    (k1.objects O).waiting_threads = ((k.objects O).waiting_threads).erase T := by
  obtain ⟨_, kc, hc, hk1⟩ := WakeupWaitingThread_some env O T k k1 h
  obtain ⟨hth, hob, _⟩ := claimStep_frame env O T k kc hc
  subst hk1
  rw [finishWakeup_objects env O T kc (callbackActions_of_quiet env O T kc hquiet), hth, hob,
    eraseTimes_nodup T _ _ hnodup (List.count_pos_iff.mpr hT)]

theorem WakeupWaitingThread_thread_other (env : Env σ) (O : ObjectId) (T : ThreadId)
    (k k1 : KernelState σ) (h : WakeupWaitingThread env O (some T) k = Except.ok k1)
    (hquiet : ∀ cb index kd,
      (env.callbacks cb ThreadWakeupReason.Signal T O index kd).actions = [])
    (x : ThreadId) (hx : x ≠ T) : k1.threads x = k.threads x := by
  obtain ⟨_, kc, hc, hk1⟩ := WakeupWaitingThread_some env O T k k1 h
  obtain ⟨hth, _, _⟩ := claimStep_frame env O T k kc hc
  subst hk1
  rw [(finishWakeup_fields env O T kc (callbackActions_of_quiet env O T kc hquiet)).2.1 x hx,
    hth]

theorem WakeupWaitingThread_ok_of_not_wait_all (env : Env σ) (O : ObjectId) (T : ThreadId)
    (k : KernelState σ) (hsw : env.ShouldWait k.res O (some T) = false)
    (hst : (k.threads T).status ≠ ThreadStatus.THREADSTATUS_WAIT_SYNCH_ALL) :
    WakeupWaitingThread env O (some T) k =
      Except.ok (finishWakeup env O T (Acquire env O T k)) := by
  have hc : claimStep env O T k = Except.ok (Acquire env O T k) := by
    simp [claimStep, IsSleepingOnWaitAll, hst]
  unfold WakeupWaitingThread
  simp only [hsw, Bool.false_eq_true, if_false, hc]

theorem eraseTimes_length_lt (t : ThreadId) (n : Nat) (l : List ThreadId) (ht : t ∈ l)
    (hn : 1 ≤ n) : (eraseTimes t n l).length < l.length := by
  cases n with
  | zero => omega
  | succ n =>
    unfold eraseTimes
    have h1 : (eraseTimes t n (l.erase t)).length ≤ (l.erase t).length :=
      (eraseTimes_sublist t n (l.erase t)).length_le
    have h2 : (l.erase t).length = l.length - 1 := List.length_erase_of_mem ht
    have h3 : 0 < l.length := List.length_pos_of_mem ht
    omega

/-- A completed wakeup by `O` of a registered thread that has `O` in its wait
set shortens the registry of `O`, when the callback registers no thread on
`O`. -/
theorem WakeupWaitingThread_registry_shrinks (env : Env σ) (O : ObjectId) (T : ThreadId)
    (k k1 : KernelState σ) (h : WakeupWaitingThread env O (some T) k = Except.ok k1)
    (hcb : ∀ cb index kd, ∀ a ∈ (env.callbacks cb ThreadWakeupReason.Signal T O index kd).actions,
      ∀ x, a ≠ CallbackAction.AddWaitingThread O x)
    (hmem : T ∈ (k.objects O).waiting_threads) (hT : O ∈ (k.threads T).wait_objects) :
    (k1.objects O).waiting_threads.length < (k.objects O).waiting_threads.length := by
  obtain ⟨_, kc, hc, hk1⟩ := WakeupWaitingThread_some env O T k k1 h
  obtain ⟨hth, hob, _⟩ := claimStep_frame env O T k kc hc
  subst hk1
  have hact : ∀ a ∈ callbackActions env O T kc, ∀ x, a ≠ CallbackAction.AddWaitingThread O x := by
    unfold callbackActions callbackOutcome
    cases (kc.threads T).wakeup_callback with
    | none => intro a ha; cases ha
    | some cb => exact hcb cb _ _
  rw [(finishWakeup_after env O T kc).1]
  refine Nat.lt_of_le_of_lt (applyActions_registry_length O _ _ hact) ?_
  rw [detachedState_objects, hth, hob]
  exact eraseTimes_length_lt T _ _ hmem (List.count_pos_iff.mpr hT)

/-- C7 (amended): when no resumption callback registers a thread on the object,
`WakeupAllWaitingThreads`, whatever the registry, `Acquire` and `ShouldWait`,
ends within one more test of the loop condition than there are registered
threads (it returns or stops at a fatal assertion), unless the loop comes to
wake a thread that does not have the object in its wait set. -/
theorem WakeupAllWaitingThreads_terminates (env : Env σ) (O : ObjectId)
    (hcb : ∀ cb t index kd,
      ∀ a ∈ (env.callbacks cb ThreadWakeupReason.Signal t O index kd).actions,
      ∀ x, a ≠ CallbackAction.AddWaitingThread O x) :
    ∀ (fuel : Nat) (k : KernelState σ),
      (k.objects O).waiting_threads.length < fuel →
      (∃ r, WakeupAllWaitingThreads env O fuel k = some r) ∨
      (∃ k2 T, LoopReaches env O k k2 ∧
        GetHighestPriorityReadyThread env O k2 = Except.ok (some T) ∧
        O ∉ (k2.threads T).wait_objects) := by
  intro fuel
  induction fuel with
  | zero => intro k hlen; omega
  | succ fuel ih =>
    intro k hlen
    unfold WakeupAllWaitingThreads
    cases hg : GetHighestPriorityReadyThread env O k with
    | error e => exact Or.inl ⟨_, rfl⟩
    | ok r =>
      cases r with
      | none => exact Or.inl ⟨_, rfl⟩
      | some T =>
        simp only
        by_cases hT : O ∈ (k.threads T).wait_objects
        · cases hw : WakeupWaitingThread env O (some T) k with
          | error e => exact Or.inl ⟨_, rfl⟩
          | ok k1 =>
            simp only
            obtain ⟨pre, post, hl, _⟩ := GetHighestPriorityReadyThread_some env O k T hg
            have hmem : T ∈ (k.objects O).waiting_threads := by rw [hl]; simp
            have hshr := WakeupWaitingThread_registry_shrinks env O T k k1 hw (hcb · T) hmem hT
            rcases ih k1 (by omega) with hend | ⟨k2, T2, hreach, hg2, hT2⟩
            · exact Or.inl hend
            · exact Or.inr ⟨k2, T2, LoopReaches.next k k1 k2 T hg hw hreach, hg2, hT2⟩
        · exact Or.inr ⟨k, T, LoopReaches.start k, hg, hT⟩

/-- Three wait-any threads on object 0, each with object 0 in its wait set and
none with a callback: with fuel 4 the driver returns and the registry is
empty. -/
theorem WakeupAllWaitingThreads_terminates_witness :
    (tieState.objects 0).waiting_threads.length < 4 ∧
    (∃ k1, WakeupAllWaitingThreads stickyEnv 0 4 tieState = some (Except.ok k1) ∧
      (k1.objects 0).waiting_threads = []) ∧
    ((∃ r, WakeupAllWaitingThreads stickyEnv 0 4 tieState = some r) ∨
      (∃ k2 T, LoopReaches stickyEnv 0 tieState k2 ∧
        GetHighestPriorityReadyThread stickyEnv 0 k2 = Except.ok (some T) ∧
        0 ∉ (k2.threads T).wait_objects)) :=
  ⟨by decide, ⟨_, rfl, rfl⟩,
    WakeupAllWaitingThreads_terminates stickyEnv 0
      (fun _ _ _ _ a ha => by cases ha) 4 tieState (by decide)⟩

theorem rearm_step (k : KernelState (List ObjectId))
    (h1 : (k.objects 0).waiting_threads = [1])
    (h2 : (k.threads 1).status = ThreadStatus.THREADSTATUS_WAIT_SYNCH_ANY)
    (h3 : (k.threads 1).wakeup_callback = some 3)
    (h4 : (k.threads 1).current_priority = 10)
    (h5 : k.res = [])
    (h6 : (k.threads 1).wait_objects = [0]) :
    ∃ k1, GetHighestPriorityReadyThread rearmEnv 0 k = Except.ok (some 1) ∧
      WakeupWaitingThread rearmEnv 0 (some 1) k = Except.ok k1 ∧
      (k1.objects 0).waiting_threads = [1] ∧
      (k1.threads 1).status = ThreadStatus.THREADSTATUS_WAIT_SYNCH_ANY ∧
      (k1.threads 1).wakeup_callback = some 3 ∧
      (k1.threads 1).current_priority = 10 ∧
      k1.res = [] ∧ (k1.threads 1).wait_objects = [0] := by
  have hg : GetHighestPriorityReadyThread rearmEnv 0 k = Except.ok (some 1) := by
    simp [GetHighestPriorityReadyThread, scanThreads, scanStep, h1, h2, h4, h5, validWaitStatus,
      initialCandidatePriority, rearmEnv]
  have hsw : rearmEnv.ShouldWait k.res 0 (some 1) = false := by simp [h5, rearmEnv]
  have hw := WakeupWaitingThread_ok_of_not_wait_all rearmEnv 0 1 k hsw (by rw [h2]; decide)
  have hk3 : ((Acquire rearmEnv 0 1 k).threads 1).wakeup_callback = some 3 := h3
  have hk6 : ((Acquire rearmEnv 0 1 k).threads 1).wait_objects = [0] := h6
  have hout : callbackOutcome rearmEnv 0 1 (Acquire rearmEnv 0 1 k) =
      some { resume := false, res := (detachedState 1 (Acquire rearmEnv 0 1 k)).res,
             actions := [CallbackAction.AddWaitingThread 0 1,
               CallbackAction.SetWaitObjects 1 [0], CallbackAction.ArmWakeupTimer 1] } := by
    unfold callbackOutcome
    rw [hk3]
    rfl
  have hact : callbackActions rearmEnv 0 1 (Acquire rearmEnv 0 1 k) =
      [CallbackAction.AddWaitingThread 0 1, CallbackAction.SetWaitObjects 1 [0],
        CallbackAction.ArmWakeupTimer 1] := by
    unfold callbackActions
    rw [hout]
  have hres : callbackResult rearmEnv 0 1 (Acquire rearmEnv 0 1 k) = some false := by
    unfold callbackResult
    rw [hout]
  obtain ⟨d1, _, _, d4, _⟩ := detachedState_fields 1 (Acquire rearmEnv 0 1 k)
  have dreg : ((detachedState 1 (Acquire rearmEnv 0 1 k)).objects 0).waiting_threads = [] := by
    rw [detachedState_objects, hk6]
    show eraseTimes 1 (List.count 0 [0]) (k.objects 0).waiting_threads = []
    rw [h1]
    rfl
  obtain ⟨f1, _, f3⟩ := finishWakeup_after rearmEnv 0 1 (Acquire rearmEnv 0 1 k)
  obtain ⟨t1, t2, t3⟩ := applyActions_thread_fields
    (callbackActions rearmEnv 0 1 (Acquire rearmEnv 0 1 k))
    (detachedState 1 (Acquire rearmEnv 0 1 k)) 1
  refine ⟨_, hg, hw, ?_, ?_, ?_, ?_, ?_, ?_⟩
  · rw [f1, hact]
    simp [applyActions, applyAction, KernelState.setThread, AddWaitingThread_objects, dreg]
  · rw [finishWakeup_status, hres]
    simpa using h2
  · rw [f3]
    simp only
    rw [t3, d1]
    exact h3
  · rw [f3]
    simp only
    rw [t2, d1]
    exact h4
  · rw [finishWakeup_res, hout]
    simp only
    rw [d4]
    exact h5
  · rw [f3, hact]
    simp [applyActions, applyAction, KernelState.setThread]

theorem rearm_loops : ∀ (fuel : Nat) (k : KernelState (List ObjectId)),
    (k.objects 0).waiting_threads = [1] →
    (k.threads 1).status = ThreadStatus.THREADSTATUS_WAIT_SYNCH_ANY →
    (k.threads 1).wakeup_callback = some 3 →
    (k.threads 1).current_priority = 10 →
    k.res = [] → (k.threads 1).wait_objects = [0] →
    WakeupAllWaitingThreads rearmEnv 0 fuel k = none := by
  intro fuel
  induction fuel with
  | zero => intro k _ _ _ _ _ _; rfl
  | succ fuel ih =>
    intro k h1 h2 h3 h4 h5 h6
    obtain ⟨k1, hg, hw, g1, g2, g3, g4, g5, g6⟩ := rearm_step k h1 h2 h3 h4 h5 h6
    unfold WakeupAllWaitingThreads
    rw [hg]
    simp only
    rw [hw]
    exact ih k1 g1 g2 g3 g4 g5 g6

/-- C7 as stated fails: no `Acquire` changes any `ShouldWait`, the registry of
object 0 holds the single thread 1, which has object 0 in its wait set, and
the loop of `WakeupAllWaitingThreads` never ends: the callback of thread 1
declines the resumption and registers the thread on object 0 again. -/
theorem WakeupAllWaitingThreads_rearmed_diverges :
    (∀ (s : List ObjectId) (object claimed : ObjectId) (t u : ThreadId),
      rearmEnv.ShouldWait (rearmEnv.Acquire s claimed u) object (some t) =
        rearmEnv.ShouldWait s object (some t)) ∧
    (rearmState.objects 0).waiting_threads = [1] ∧
    (rearmState.threads 1).wait_objects = [0] ∧
    ∀ fuel, WakeupAllWaitingThreads rearmEnv 0 fuel rearmState = none :=
  ⟨fun _ _ _ _ _ => rfl, rfl, rfl,
    fun fuel => rearm_loops fuel rearmState rfl rfl rfl rfl rfl rfl⟩

theorem WakeupAllWaitingThreads_ends_at_none (env : Env σ) (O : ObjectId) :
    ∀ (fuel : Nat) (k k1 : KernelState σ),
      WakeupAllWaitingThreads env O fuel k = some (Except.ok k1) →
      GetHighestPriorityReadyThread env O k1 = Except.ok none := by
  intro fuel
  induction fuel with
  | zero => intro k k1 h; cases h
  | succ fuel ih =>
    intro k k1 h
    unfold WakeupAllWaitingThreads at h
    cases hg : GetHighestPriorityReadyThread env O k with
    | error e => rw [hg] at h; cases h
    | ok r =>
      rw [hg] at h
      cases r with
      | none =>
        have hk : k = k1 := Except.ok.inj (Option.some.inj h)
        rw [← hk]
        exact hg
      | some T =>
        simp only at h
        cases hw : WakeupWaitingThread env O (some T) k with
        | error e => rw [hw] at h; cases h
        | ok k2 =>
          rw [hw] at h
          exact ih k2 k1 h

/-- C8 (amended): when `WakeupAllWaitingThreads` returns, every thread still in
the registry whose priority does not exceed `THREADPRIO_LOWEST` is not ready:
`ShouldWait` is true for it on this object, or it is a wait-all thread with
`ShouldWait` true on some object of its wait set (`THREADPRIO_LOWEST + 1`
being representable as a `u32`). -/
theorem WakeupAllWaitingThreads_leaves_none_ready (env : Env σ) (O : ObjectId) (fuel : Nat)
    (k k1 : KernelState σ)
    (h : WakeupAllWaitingThreads env O fuel k = some (Except.ok k1))
    (hL : env.THREADPRIO_LOWEST + 1 < 2 ^ 32) :
    ∀ t ∈ (k1.objects O).waiting_threads, prio k1 t ≤ env.THREADPRIO_LOWEST →
      env.ShouldWait k1.res O (some t) = true ∨
      ((k1.threads t).status = ThreadStatus.THREADSTATUS_WAIT_SYNCH_ALL ∧
        ∃ object ∈ (k1.threads t).wait_objects, env.ShouldWait k1.res object (some t) = true) := by
  intro t ht hprio
  have hnone := WakeupAllWaitingThreads_ends_at_none env O fuel k k1 h
  have hnot : ¬ Eligible env O k1 t := by
    intro helig
    have h1 := GetHighestPriorityReadyThread_none env O k1 hnone t ht helig
    rw [initialCandidatePriority_eq env hL] at h1
    omega
  unfold Eligible at hnot
  by_cases hsw : env.ShouldWait k1.res O (some t) = true
  · exact Or.inl hsw
  · right
    have hsw1 : env.ShouldWait k1.res O (some t) = false := by simpa using hsw
    by_contra hcon
    apply hnot
    refine ⟨hsw1, fun hall object hobj => ?_⟩
    cases hs : env.ShouldWait k1.res object (some t)
    · rfl
    · exact absurd ⟨hall, object, hobj, hs⟩ hcon

/-- With object 2 blocking, the driver on object 1 wakes thread 8 and returns;
thread 7 stays registered and is not ready. -/
theorem WakeupAllWaitingThreads_leaves_none_ready_witness :
    ∃ k1, WakeupAllWaitingThreads stickyEnv 1 3 partlyReadyState = some (Except.ok k1) ∧
      (k1.objects 1).waiting_threads = [7] ∧
      ∀ t ∈ (k1.objects 1).waiting_threads, prio k1 t ≤ stickyEnv.THREADPRIO_LOWEST →
        stickyEnv.ShouldWait k1.res 1 (some t) = true ∨
        ((k1.threads t).status = ThreadStatus.THREADSTATUS_WAIT_SYNCH_ALL ∧
          ∃ object ∈ (k1.threads t).wait_objects,
            stickyEnv.ShouldWait k1.res object (some t) = true) :=
  ⟨_, rfl, rfl,
    WakeupAllWaitingThreads_leaves_none_ready stickyEnv 1 3 partlyReadyState _ rfl (by decide)⟩

/-- C8 as stated fails: thread 1 has priority 64, above `THREADPRIO_LOWEST = 63`.
The driver wakes thread 2 and returns; thread 1 is still registered although
`ShouldWait` is false for it and it is not a wait-all thread. -/
theorem WakeupAllWaitingThreads_skips_low_priority :
    ∃ k1, WakeupAllWaitingThreads alwaysReadyEnv 0 3 lowPriorityState = some (Except.ok k1) ∧
      (k1.objects 0).waiting_threads = [1] ∧
      alwaysReadyEnv.ShouldWait k1.res 0 (some 1) = false ∧
      (k1.threads 1).status = ThreadStatus.THREADSTATUS_WAIT_SYNCH_ANY :=
  ⟨_, rfl, rfl, rfl, rfl⟩

theorem wokenThreads_append (O : ObjectId) :
    ∀ (a b : List Event), wokenThreads O (a ++ b) = wokenThreads O a ++ wokenThreads O b := by
  intro a
  induction a with
  | nil => intro b; rfl
  | cons e rest ih =>
    intro b
    cases e with
    | Acquire object t =>
      by_cases ho : object = O
      · simp [wokenThreads, ho, ih]
      · simp [wokenThreads, ho, ih]
    | RemoveWaitingThread object t => simpa [wokenThreads] using ih b
    | ClearWaitObjects t => simpa [wokenThreads] using ih b
    | CancelWakeupTimer t => simpa [wokenThreads] using ih b
    | WakeupCallback reason t object index result => simpa [wokenThreads] using ih b
    | ResumeFromWait t => simpa [wokenThreads] using ih b

theorem wokenThreads_of_no_acquire (O : ObjectId) :
    ∀ (l : List Event), (∀ e ∈ l, isAcquire e = false) → wokenThreads O l = [] := by
  intro l
  induction l with
  | nil => intro _; rfl
  | cons e rest ih =>
    intro h
    have hrest := ih (fun x hx => h x (List.mem_cons_of_mem _ hx))
    have he := h e (List.mem_cons_self _ _)
    cases e with
    | Acquire object t => simp [isAcquire] at he
    | RemoveWaitingThread object t => simpa [wokenThreads] using hrest
    | ClearWaitObjects t => simpa [wokenThreads] using hrest
    | CancelWakeupTimer t => simpa [wokenThreads] using hrest
    | WakeupCallback reason t object index result => simpa [wokenThreads] using hrest
    | ResumeFromWait t => simpa [wokenThreads] using hrest

/-- C9 (amended): let the registry of `O` be duplicate-free and hold only
wait-any threads that have `O` in their wait set and a priority not exceeding
`THREADPRIO_LOWEST`; let `ShouldWait` of `O` be false for all of them now and
stay false across claims and resumption callbacks (`I` is a condition on the
resource state that holds now, is kept by every `Acquire` on `O` and every
callback, and under which `ShouldWait` is false); and let the resumption
callbacks take no action on the wait bookkeeping.  Then
`WakeupAllWaitingThreads(O)`, given more fuel than there are registered
threads, returns; the threads it woke (the `Acquire` calls on `O`) are the
registered threads, each once, in ascending order of priority value with ties
in registration order; and the registry of `O` is empty afterwards. -/
theorem WakeupAllWaitingThreads_serves_in_order (env : Env σ) (O : ObjectId)
    (hL : env.THREADPRIO_LOWEST + 1 < 2 ^ 32) (I : σ → Prop)
    (hacq : ∀ s t, I s → I (env.Acquire s O t))
    (hcb : ∀ cb t index kd, I kd.res →
      I (env.callbacks cb ThreadWakeupReason.Signal t O index kd).res)
    (hquiet : ∀ cb t index kd,
      (env.callbacks cb ThreadWakeupReason.Signal t O index kd).actions = []) :
    ∀ (fuel : Nat) (k : KernelState σ),
      (k.objects O).waiting_threads.Nodup →
      (∀ t ∈ (k.objects O).waiting_threads,
        (k.threads t).status = ThreadStatus.THREADSTATUS_WAIT_SYNCH_ANY ∧
        O ∈ (k.threads t).wait_objects ∧ prio k t ≤ env.THREADPRIO_LOWEST) →
      I k.res →
      (∀ (s : σ), I s → ∀ t ∈ (k.objects O).waiting_threads,
        env.ShouldWait s O (some t) = false) →
      (k.objects O).waiting_threads.length < fuel →
      ∃ k1 evs, WakeupAllWaitingThreads env O fuel k = some (Except.ok k1) ∧
        k1.log = k.log ++ evs ∧
        (k1.objects O).waiting_threads = [] ∧
        (wokenThreads O evs).Perm (k.objects O).waiting_threads ∧
        (wokenThreads O evs).Pairwise (servedBefore k (k.objects O).waiting_threads) := by
  intro fuel
  induction fuel with
  | zero => intro k _ _ _ _ hlen; omega
  | succ fuel ih =>
    intro k hnodup hthreads hI hready hlen
    have hvalid : ∀ t ∈ (k.objects O).waiting_threads,
        validWaitStatus (k.threads t).status = true := by
      intro t ht
      rw [(hthreads t ht).1]
      rfl
    have helig : ∀ t ∈ (k.objects O).waiting_threads, Eligible env O k t := by
      intro t ht
      refine ⟨hready k.res hI t ht, fun hall => ?_⟩
      rw [(hthreads t ht).1] at hall
      cases hall
    obtain ⟨r, hg⟩ := GetHighestPriorityReadyThread_ok env O k hvalid
    unfold WakeupAllWaitingThreads
    rw [hg]
    cases r with
    | none =>
      have hnil : (k.objects O).waiting_threads = [] := by
        apply List.eq_nil_iff_forall_not_mem.mpr
        intro t ht
        have h1 := GetHighestPriorityReadyThread_none env O k hg t ht (helig t ht)
        rw [initialCandidatePriority_eq env hL] at h1
        have h2 := (hthreads t ht).2.2
        omega
      refine ⟨k, [], rfl, by simp, hnil, ?_, ?_⟩
      · rw [hnil]
        exact List.Perm.refl _
      · exact List.Pairwise.nil
    | some T =>
      simp only
      obtain ⟨pre, post, hl, _, _, hpre, hpost⟩ := GetHighestPriorityReadyThread_some env O k T hg
      have hmem : T ∈ (k.objects O).waiting_threads := by rw [hl]; simp
      have hw := WakeupWaitingThread_ok_of_not_wait_all env O T k (hready k.res hI T hmem)
        (by rw [(hthreads T hmem).1]; decide)
      rw [hw]
      simp only
      have hreg := WakeupWaitingThread_registry env O T k _ hw (hquiet · T) hnodup
        (hthreads T hmem).2.1
      have hother := WakeupWaitingThread_thread_other env O T k _ hw (hquiet · T)
      have hne : ∀ t ∈ ((k.objects O).waiting_threads).erase T, t ≠ T :=
        fun t ht => ((List.Nodup.mem_erase_iff hnodup).mp ht).1
      have hlen1 : ((finishWakeup env O T (Acquire env O T k)).objects O).waiting_threads.length
          < fuel := by
        rw [hreg, List.length_erase_of_mem hmem]
        have : 0 < (k.objects O).waiting_threads.length := List.length_pos_of_mem hmem
        omega
      have hI1 : I (finishWakeup env O T (Acquire env O T k)).res := by
        rw [finishWakeup_res]
        have hIa : I (Acquire env O T k).res := hacq k.res T hI
        unfold callbackOutcome
        cases ((Acquire env O T k).threads T).wakeup_callback with
        | none => exact hIa
        | some cb =>
          refine hcb cb T _ _ ?_
          rw [(detachedState_fields T (Acquire env O T k)).2.2.2.1]
          exact hIa
      obtain ⟨k2, evs, hrun, hlog, hempty, hperm, hpair⟩ :=
        ih (finishWakeup env O T (Acquire env O T k))
          (by rw [hreg]; exact hnodup.erase T)
          (by
            intro t ht
            rw [hreg] at ht
            have hin := List.mem_of_mem_erase ht
            rw [prio, hother t (hne t ht)]
            exact hthreads t hin)
          hI1
          (by
            intro s hs t ht
            rw [hreg] at ht
            exact hready s hs t (List.mem_of_mem_erase ht))
          hlen1
      have hwoken : wokenThreads O ([Event.Acquire O T] ++
          wakeupEvents env O T (Acquire env O T k) ++ evs) = T :: wokenThreads O evs := by
        rw [wokenThreads_append, wokenThreads_append,
          wokenThreads_of_no_acquire O _ (wakeupEvents_no_acquire env O T _)]
        simp [wokenThreads]
      refine ⟨k2, [Event.Acquire O T] ++ wakeupEvents env O T (Acquire env O T k) ++ evs,
        hrun, ?_, hempty, ?_, ?_⟩
      · rw [hlog, finishWakeup_log]
        simp [Acquire]
      · rw [hwoken]
        rw [hreg] at hperm
        exact (List.Perm.cons T hperm).trans (List.perm_cons_erase hmem).symm
      · rw [hwoken]
        rw [hreg] at hperm hpair
        refine List.Pairwise.cons ?_ ?_
        · intro b hb
          have hbe : b ∈ ((k.objects O).waiting_threads).erase T := hperm.mem_iff.mp hb
          have hbin : b ∈ (k.objects O).waiting_threads := List.mem_of_mem_erase hbe
          have hbne : b ≠ T := hne b hbe
          have hbel := helig b hbin
          rw [hl] at hbin
          rcases List.mem_append.mp hbin with hb1 | hb1
          · exact Or.inl (hpre b hb1 hbel)
          · rcases List.mem_cons.mp hb1 with hb2 | hb2
            · exact absurd hb2 hbne
            · have hle := hpost b hb2 hbel
              rcases Nat.lt_or_ge (prio k T) (prio k b) with hlt | hge
              · exact Or.inl hlt
              · refine Or.inr ⟨Nat.le_antisymm hle hge, ?_⟩
                rw [hl]
                exact List.Sublist.trans
                  (List.Sublist.cons₂ T (List.singleton_sublist.mpr hb2))
                  (List.sublist_append_right pre (T :: post))
        · refine List.Pairwise.imp_of_mem ?_ hpair
          intro a b ha hb hab
          have hae : a ∈ ((k.objects O).waiting_threads).erase T := hperm.mem_iff.mp ha
          have hbe : b ∈ ((k.objects O).waiting_threads).erase T := hperm.mem_iff.mp hb
          unfold servedBefore prio at hab ⊢
          rw [hother a (hne a hae), hother b (hne b hbe)] at hab
          rcases hab with hlt | ⟨heq, hsub⟩
          · exact Or.inl hlt
          · exact Or.inr ⟨heq, hsub.trans (List.erase_sublist T _)⟩

/-- The scenario of the spec: `B` (thread 1, priority 10) then `C` (thread 2,
priority 5) are registered on object 0.  The driver wakes `C` before `B` and
leaves the registry empty. -/
theorem WakeupAllWaitingThreads_serves_in_order_witness :
    ∃ k1 evs, WakeupAllWaitingThreads alwaysReadyEnv 0 3 scenarioState = some (Except.ok k1) ∧
      k1.log = scenarioState.log ++ evs ∧
      (k1.objects 0).waiting_threads = [] ∧
      wokenThreads 0 k1.log = [2, 1] ∧
      (wokenThreads 0 evs).Perm (scenarioState.objects 0).waiting_threads ∧
      (wokenThreads 0 evs).Pairwise
        (servedBefore scenarioState (scenarioState.objects 0).waiting_threads) :=
  have h := WakeupAllWaitingThreads_serves_in_order alwaysReadyEnv 0 (by decide)
    (fun _ => True) (fun _ _ _ => trivial) (fun _ _ _ _ _ => trivial) (fun _ _ _ _ => rfl)
    3 scenarioState (by decide) (by decide) trivial (fun _ _ _ _ => rfl) (by decide)
  match h with
  | ⟨k1, evs, h1, h2, h3, h4, h5⟩ =>
    ⟨k1, evs, h1, h2, h3, by
      have hk : k1 = _ := (Except.ok.inj (Option.some.inj h1)).symm
      rw [hk]
      rfl, h4, h5⟩

/-- C9 as stated fails, in three ways.  In each, every registered thread is a
wait-any thread whose wait set is `[0]`, `ShouldWait` of object 0 is false for
all of them and no `Acquire` changes the resource state.
(1) Thread 1 has priority 64, above `THREADPRIO_LOWEST = 63`: the driver
returns having woken thread 2 only, and thread 1 is left in the registry.
(2) The callback of thread 1 declines the resumption and registers the thread
on object 0 again: the driver never returns.
(3) The callback of thread 1 takes the resource back, so that object 0 blocks:
the driver returns having woken thread 1 only, and thread 2 is left in the
registry. -/
theorem WakeupAllWaitingThreads_not_all_served :
    ((∀ t ∈ (lowPriorityState.objects 0).waiting_threads,
        (lowPriorityState.threads t).status = ThreadStatus.THREADSTATUS_WAIT_SYNCH_ANY ∧
        (lowPriorityState.threads t).wait_objects = [0]) ∧
      (∀ (s : Unit) (t : ThreadId), alwaysReadyEnv.ShouldWait s 0 (some t) = false) ∧
      ∃ k1, WakeupAllWaitingThreads alwaysReadyEnv 0 3 lowPriorityState = some (Except.ok k1) ∧
        wokenThreads 0 k1.log = [2] ∧
        (k1.objects 0).waiting_threads = [1]) ∧
    ((∀ t ∈ (rearmState.objects 0).waiting_threads,
        (rearmState.threads t).status = ThreadStatus.THREADSTATUS_WAIT_SYNCH_ANY ∧
        (rearmState.threads t).wait_objects = [0] ∧
        prio rearmState t ≤ rearmEnv.THREADPRIO_LOWEST ∧
        rearmEnv.ShouldWait rearmState.res 0 (some t) = false) ∧
      (∀ (s : List ObjectId) (o : ObjectId) (t : ThreadId), rearmEnv.Acquire s o t = s) ∧
      ∀ fuel, WakeupAllWaitingThreads rearmEnv 0 fuel rearmState = none) ∧
    ((∀ t ∈ ((pairState (some 5)).objects 0).waiting_threads,
        ((pairState (some 5)).threads t).status = ThreadStatus.THREADSTATUS_WAIT_SYNCH_ANY ∧
        ((pairState (some 5)).threads t).wait_objects = [0] ∧
        prio (pairState (some 5)) t ≤ rearmEnv.THREADPRIO_LOWEST ∧
        rearmEnv.ShouldWait (pairState (some 5)).res 0 (some t) = false) ∧
      ∃ k1, WakeupAllWaitingThreads rearmEnv 0 3 (pairState (some 5)) = some (Except.ok k1) ∧
        wokenThreads 0 k1.log = [1] ∧
        (k1.objects 0).waiting_threads = [2]) :=
  ⟨⟨by decide, fun _ _ => rfl, _, rfl, rfl, rfl⟩,
    ⟨by decide, fun _ _ _ => rfl,
      fun fuel => rearm_loops fuel rearmState rfl rfl rfl rfl rfl rfl⟩,
    ⟨by decide, _, rfl, rfl, rfl⟩⟩

/-! ## Properties of the registry operations -/

theorem applyCall_nodup (call : RegistryCall) (k : KernelState σ) (P : ObjectId)
    (h : (k.objects P).waiting_threads.Nodup) :
    ((applyCall call k).objects P).waiting_threads.Nodup := by
  cases call with
  | AddWaitingThread object thread =>
    unfold applyCall
    rw [AddWaitingThread_objects]
    split_ifs with hc
    · obtain ⟨hP, hmem⟩ := hc
      subst hP
      exact List.Nodup.append h (List.nodup_singleton thread)
        (by simpa [List.disjoint_singleton] using hmem)
    · exact h
  | RemoveWaitingThread object thread =>
    unfold applyCall
    rw [RemoveWaitingThread_objects]
    split_ifs
    · exact h.erase thread
    · exact h

/-- C11: starting from a duplicate-free registry (the empty one in particular),
every finite sequence of `AddWaitingThread` and `RemoveWaitingThread` calls, on
this or any other object, leaves a registry in which each thread occurs at
most once. -/
theorem registry_never_has_duplicates (calls : List RegistryCall) (k : KernelState σ)
    (P : ObjectId) (h : (k.objects P).waiting_threads.Nodup) :
    ((applyCalls calls k).objects P).waiting_threads.Nodup ∧
    ∀ t, ((applyCalls calls k).objects P).waiting_threads.count t ≤ 1 := by
  have hnodup : ((applyCalls calls k).objects P).waiting_threads.Nodup := by
    induction calls generalizing k with
    | nil => exact h
    | cons call rest ih =>
      unfold applyCalls
      exact ih (applyCall call k) (applyCall_nodup call k P h)
  exact ⟨hnodup, fun t => List.nodup_iff_count_le_one.mp hnodup t⟩

/-- From the empty registry, adding thread 4 twice, thread 5, removing an absent
thread 9, adding 4 again and removing 5 leaves the registry `[4]`. -/
theorem registry_never_has_duplicates_witness :
    ((applyCalls [RegistryCall.AddWaitingThread 0 4, RegistryCall.AddWaitingThread 0 4,
        RegistryCall.AddWaitingThread 0 5, RegistryCall.RemoveWaitingThread 0 9,
        RegistryCall.AddWaitingThread 0 4, RegistryCall.RemoveWaitingThread 0 5]
        emptyState).objects 0).waiting_threads = [4] ∧
    ((applyCalls [RegistryCall.AddWaitingThread 0 4, RegistryCall.AddWaitingThread 0 4,
        RegistryCall.AddWaitingThread 0 5, RegistryCall.RemoveWaitingThread 0 9,
        RegistryCall.AddWaitingThread 0 4, RegistryCall.RemoveWaitingThread 0 5]
        emptyState).objects 0).waiting_threads.Nodup ∧
    ∀ t, ((applyCalls [RegistryCall.AddWaitingThread 0 4, RegistryCall.AddWaitingThread 0 4,
        RegistryCall.AddWaitingThread 0 5, RegistryCall.RemoveWaitingThread 0 9,
        RegistryCall.AddWaitingThread 0 4, RegistryCall.RemoveWaitingThread 0 5]
        emptyState).objects 0).waiting_threads.count t ≤ 1 :=
  ⟨rfl, registry_never_has_duplicates _ emptyState 0 (by decide)⟩

/-- C12: `AddWaitingThread(T)` on a registry that already holds `T` changes
nothing, so adding twice is adding once; on a registry that does not hold `T`
the new registry is the old one with `T` appended at the end; the registries
of the other objects are untouched. -/
theorem AddWaitingThread_idempotent_append (O : ObjectId) (T : ThreadId) (k : KernelState σ) :
    (T ∈ (k.objects O).waiting_threads → AddWaitingThread O T k = k) ∧
    (T ∉ (k.objects O).waiting_threads →
      ((AddWaitingThread O T k).objects O).waiting_threads =
        (k.objects O).waiting_threads ++ [T]) ∧
    AddWaitingThread O T (AddWaitingThread O T k) = AddWaitingThread O T k ∧
    (∀ P, P ≠ O → (AddWaitingThread O T k).objects P = k.objects P) := by
  have hpresent : ∀ k1 : KernelState σ, T ∈ (k1.objects O).waiting_threads →
      AddWaitingThread O T k1 = k1 := by
    intro k1 hmem
    unfold AddWaitingThread
    simp [hmem]
  have happend : T ∉ (k.objects O).waiting_threads →
      ((AddWaitingThread O T k).objects O).waiting_threads =
        (k.objects O).waiting_threads ++ [T] := by
    intro hmem
    rw [AddWaitingThread_objects]
    simp [hmem]
  refine ⟨hpresent k, happend, ?_, ?_⟩
  · by_cases hmem : T ∈ (k.objects O).waiting_threads
    · rw [hpresent k hmem, hpresent k hmem]
    · apply hpresent
      rw [happend hmem]
      simp
  · intro P hP
    unfold AddWaitingThread
    by_cases hmem : T ∈ (k.objects O).waiting_threads
    · simp [hmem]
    · simp [hmem, hP, KernelState.setObject]

/-- C13: `RemoveWaitingThread(T)` is total.  On a registry that does not hold
`T` the registry is unchanged; on a registry that holds `T` exactly the first
entry equal to `T` is taken out and the other entries keep their order; on a
duplicate-free registry `T` is then absent and the length has dropped by one;
the registries of the other objects are untouched. -/
theorem RemoveWaitingThread_first_match (O : ObjectId) (T : ThreadId) (k : KernelState σ) :
    (T ∉ (k.objects O).waiting_threads →
      ((RemoveWaitingThread O T k).objects O).waiting_threads = (k.objects O).waiting_threads) ∧
    (T ∈ (k.objects O).waiting_threads →
      ∃ pre post, (k.objects O).waiting_threads = pre ++ T :: post ∧ T ∉ pre ∧
        ((RemoveWaitingThread O T k).objects O).waiting_threads = pre ++ post) ∧
    (T ∈ (k.objects O).waiting_threads → (k.objects O).waiting_threads.Nodup →
      T ∉ ((RemoveWaitingThread O T k).objects O).waiting_threads ∧
      ((RemoveWaitingThread O T k).objects O).waiting_threads.length + 1 =
        (k.objects O).waiting_threads.length) ∧
    (∀ P, P ≠ O →
      ((RemoveWaitingThread O T k).objects P).waiting_threads = (k.objects P).waiting_threads) := by
  have hobj := RemoveWaitingThread_objects O T k
  refine ⟨fun hmem => ?_, fun hmem => ?_, fun hmem hnodup => ?_, fun P hP => ?_⟩
  · rw [hobj O]
    simp [List.erase_of_not_mem hmem]
  · obtain ⟨pre, post, hpre, hl, herase⟩ := List.exists_erase_eq hmem
    refine ⟨pre, post, hl, hpre, ?_⟩
    rw [hobj O]
    simp [herase]
  · rw [hobj O]
    simp only [if_true]
    refine ⟨fun hin => ((List.Nodup.mem_erase_iff hnodup).mp hin).1 rfl, ?_⟩
    rw [List.length_erase_of_mem hmem]
    have : 0 < (k.objects O).waiting_threads.length := List.length_pos_of_mem hmem
    omega
  · rw [hobj P]
    simp [hP]

/-! ## The null result of the scheduler -/

/-- C14 (amended): on a registry whose threads all have a valid wait status and
a priority of at most `THREADPRIO_LOWEST`, `GetHighestPriorityReadyThread`
returns, and it returns the null result if and only if no registered thread
is eligible (`THREADPRIO_LOWEST + 1` being representable as a `u32`, so that
the initial candidate priority is worse than every valid priority). -/
theorem GetHighestPriorityReadyThread_none_iff (env : Env σ) (O : ObjectId)
    (k : KernelState σ)
    (hstatus : ∀ t ∈ (k.objects O).waiting_threads, validWaitStatus (k.threads t).status = true)
    (hprio : ∀ t ∈ (k.objects O).waiting_threads, prio k t ≤ env.THREADPRIO_LOWEST)
    (hL : env.THREADPRIO_LOWEST + 1 < 2 ^ 32) :
    (∃ r, GetHighestPriorityReadyThread env O k = Except.ok r) ∧
    (GetHighestPriorityReadyThread env O k = Except.ok none ↔
      ∀ t ∈ (k.objects O).waiting_threads, ¬ Eligible env O k t) := by
  obtain ⟨r, hr⟩ := GetHighestPriorityReadyThread_ok env O k hstatus
  refine ⟨⟨r, hr⟩, fun hnone t ht helig => ?_, fun hno => ?_⟩
  · have h1 := GetHighestPriorityReadyThread_none env O k hnone t ht helig
    rw [initialCandidatePriority_eq env hL] at h1
    have h2 := hprio t ht
    omega
  · cases r with
    | none => exact hr
    | some T =>
      obtain ⟨pre, post, hl, _, helig, _⟩ := GetHighestPriorityReadyThread_some env O k T hr
      exact absurd helig (hno T (by rw [hl]; simp))

/-- The wait-all thread 7 is alone on object 1.  With object 2 blocking no
thread is eligible and the null result is returned; once objects 1 and 2 are
both ready, thread 7 is returned. -/
theorem GetHighestPriorityReadyThread_none_iff_witness :
    GetHighestPriorityReadyThread stickyEnv 1 (waitAllState [2]) = Except.ok none ∧
    (∀ t ∈ ((waitAllState [2]).objects 1).waiting_threads,
      ¬ Eligible stickyEnv 1 (waitAllState [2]) t) ∧
    GetHighestPriorityReadyThread stickyEnv 1 (waitAllState []) = Except.ok (some 7) ∧
    ¬ (∀ t ∈ ((waitAllState []).objects 1).waiting_threads,
      ¬ Eligible stickyEnv 1 (waitAllState []) t) :=
  have h2 := GetHighestPriorityReadyThread_none_iff stickyEnv 1 (waitAllState [2])
    (by decide) (by decide) (by decide)
  have h0 := GetHighestPriorityReadyThread_none_iff stickyEnv 1 (waitAllState [])
    (by decide) (by decide) (by decide)
  ⟨rfl, h2.2.mp rfl, rfl, fun hno => by
    have h := h0.2.mpr hno
    have h7 : GetHighestPriorityReadyThread stickyEnv 1 (waitAllState []) =
        Except.ok (some 7) := rfl
    rw [h7] at h
    cases h⟩

/-- C14 as stated fails: the one registered thread has priority 10, below
`THREADPRIO_LOWEST = 63`, and is not eligible, yet the scheduler does not
return the null result: the thread's status is not a wait status and the
status assertion stops the scan. -/
theorem GetHighestPriorityReadyThread_stale_status_aborts :
    (∀ t ∈ (staleState.objects 0).waiting_threads,
      prio staleState t ≤ stickyEnv.THREADPRIO_LOWEST) ∧
    (∀ t ∈ (staleState.objects 0).waiting_threads, ¬ Eligible stickyEnv 0 staleState t) ∧
    GetHighestPriorityReadyThread stickyEnv 0 staleState =
      Except.error Fault.inconsistent_status :=
  ⟨by decide, by decide, rfl⟩

/-! ## The resumption callback -/

/-- C15: when `T` carries a resumption callback and `WakeupWaitingThread(T)` on
`O` completes, the callback was invoked exactly once, with reason `Signal`,
the thread `T`, the object `O` and the index that `GetWaitObjectIndex` gives
for `O` in the wait set `T` had at entry (a position of `O` in that list when
`O` is in it); the call comes after every `RemoveWaitingThread` of the detach
step, after the wait set was cleared and after the timer was cancelled, and
the state the callback is invoked on has the wait set of `T` empty and its
timer cancelled. -/
theorem WakeupWaitingThread_callback_once (env : Env σ) (O : ObjectId) (T : ThreadId)
    (k k1 : KernelState σ) (cb : CallbackId)
    (h : WakeupWaitingThread env O (some T) k = Except.ok k1)
    (hcb : (k.threads T).wakeup_callback = some cb) :
    ∃ kc earlier result later, claimStep env O T k = Except.ok kc ∧
      k1.log = k.log ++ earlier ++
        [Event.WakeupCallback ThreadWakeupReason.Signal T O
          (GetWaitObjectIndex (k.threads T) O) result] ++ later ∧
      result = (env.callbacks cb ThreadWakeupReason.Signal T O
        (GetWaitObjectIndex (k.threads T) O) (detachedState T kc)).resume ∧
      (∀ e ∈ earlier ++ later, isCallback e = false) ∧
      (∀ P ∈ (k.threads T).wait_objects, Event.RemoveWaitingThread P T ∈ earlier) ∧
      Event.ClearWaitObjects T ∈ earlier ∧ Event.CancelWakeupTimer T ∈ earlier ∧
      (O ∈ (k.threads T).wait_objects →
        (k.threads T).wait_objects.get? (GetWaitObjectIndex (k.threads T) O) = some O) ∧
      ((detachedState T kc).threads T).wait_objects = [] ∧
      ((detachedState T kc).threads T).wakeup_timer_armed = false := by
  obtain ⟨_, kc, hc, hk1⟩ := WakeupWaitingThread_some env O T k k1 h
  obtain ⟨hth, _, hlog⟩ := claimStep_frame env O T k kc hc
  have f4 := finishWakeup_log env O T kc
  have d1 := (detachedState_fields T kc).1
  subst hk1
  have hres : callbackResult env O T kc = some (env.callbacks cb ThreadWakeupReason.Signal T O
      (GetWaitObjectIndex (k.threads T) O) (detachedState T kc)).resume := by
    unfold callbackResult callbackOutcome
    rw [hth, hcb]
  refine ⟨kc,
    (claimedObjects k O T).map (fun object => Event.Acquire object T) ++
      ((k.threads T).wait_objects.map (fun object => Event.RemoveWaitingThread object T) ++
        [Event.ClearWaitObjects T, Event.CancelWakeupTimer T]),
    (env.callbacks cb ThreadWakeupReason.Signal T O (GetWaitObjectIndex (k.threads T) O)
      (detachedState T kc)).resume,
    (if (env.callbacks cb ThreadWakeupReason.Signal T O
        (GetWaitObjectIndex (k.threads T) O) (detachedState T kc)).resume = false then []
      else [Event.ResumeFromWait T]),
    hc, ?_, rfl, ?_, ?_, by simp, by simp, ?_, by rw [d1], by rw [d1]⟩
  · rw [f4, hlog]
    unfold wakeupEvents
    rw [hres, hth]
    simp
  · intro e he
    simp only [List.mem_append, List.mem_map, List.mem_cons, List.mem_singleton,
      List.not_mem_nil, or_false] at he
    rcases he with (⟨P, _, rfl⟩ | ⟨P, _, rfl⟩ | rfl | rfl) | he
    · rfl
    · rfl
    · rfl
    · rfl
    · split_ifs at he
      · simp at he
      · simp only [List.mem_singleton] at he
        subst he
        rfl
  · intro P hP
    simp only [List.mem_append, List.mem_map]
    exact Or.inr (Or.inl ⟨P, hP, rfl⟩)
  · intro hO
    unfold GetWaitObjectIndex
    exact List.indexOf_get? hO

/-- Thread 7 (wait set `[1, 2]`, callback `1`) is woken on object 2: the one
callback call carries `Signal`, thread 7, object 2 and index 1, after the
removals, the clearing of the wait set and the cancelling of the timer. -/
theorem WakeupWaitingThread_callback_once_witness :
    ∃ k1, WakeupWaitingThread stickyEnv 2 (some 7) (wakeState (some 1)) = Except.ok k1 ∧
      k1.log = [Event.Acquire 1 7, Event.Acquire 2 7, Event.RemoveWaitingThread 1 7,
        Event.RemoveWaitingThread 2 7, Event.ClearWaitObjects 7, Event.CancelWakeupTimer 7,
        Event.WakeupCallback ThreadWakeupReason.Signal 7 2 1 true, Event.ResumeFromWait 7] ∧
      ∃ kc earlier result later, claimStep stickyEnv 2 7 (wakeState (some 1)) = Except.ok kc ∧
        k1.log = (wakeState (some 1)).log ++ earlier ++
          [Event.WakeupCallback ThreadWakeupReason.Signal 7 2
            (GetWaitObjectIndex ((wakeState (some 1)).threads 7) 2) result] ++ later ∧
        result = (stickyEnv.callbacks 1 ThreadWakeupReason.Signal 7 2
          (GetWaitObjectIndex ((wakeState (some 1)).threads 7) 2) (detachedState 7 kc)).resume ∧
        (∀ e ∈ earlier ++ later, isCallback e = false) ∧
        (∀ P ∈ ((wakeState (some 1)).threads 7).wait_objects,
          Event.RemoveWaitingThread P 7 ∈ earlier) ∧
        Event.ClearWaitObjects 7 ∈ earlier ∧ Event.CancelWakeupTimer 7 ∈ earlier ∧
        (2 ∈ ((wakeState (some 1)).threads 7).wait_objects →
          ((wakeState (some 1)).threads 7).wait_objects.get?
            (GetWaitObjectIndex ((wakeState (some 1)).threads 7) 2) = some 2) ∧
        ((detachedState 7 kc).threads 7).wait_objects = [] ∧
        ((detachedState 7 kc).threads 7).wakeup_timer_armed = false :=
  ⟨_, rfl, rfl,
    WakeupWaitingThread_callback_once stickyEnv 2 7 (wakeState (some 1)) _ 1 rfl rfl⟩

/-! ## The assertions of the wakeup protocol -/

theorem scanThreads_error (env : Env σ) (k : KernelState σ) (O : ObjectId) :
    ∀ (l : List ThreadId) (acc : Scan) (e : Fault),
      scanThreads env k O l acc = Except.error e → e = Fault.inconsistent_status := by
  intro l
  induction l with
  | nil => intro acc e h; cases h
  | cons t rest ih =>
    intro acc e h
    unfold scanThreads at h
    cases hstep : scanStep env k O acc t with
    | error e1 =>
      rw [hstep] at h
      have he : e1 = e := Except.error.inj h
      subst he
      unfold scanStep at hstep
      dsimp only at hstep
      split_ifs at hstep
      exact (Except.error.inj hstep).symm
    | ok acc1 =>
      rw [hstep] at h
      exact ih acc1 e h

theorem GetHighestPriorityReadyThread_error (env : Env σ) (O : ObjectId) (k : KernelState σ)
    (e : Fault) (h : GetHighestPriorityReadyThread env O k = Except.error e) :
    e = Fault.inconsistent_status := by
  unfold GetHighestPriorityReadyThread at h
  cases hscan : scanThreads env k O (k.objects O).waiting_threads
      { candidate := none, candidate_priority := initialCandidatePriority env } with
  | error e1 =>
    rw [hscan] at h
    have he : e1 = e := Except.error.inj h
    subst he
    exact scanThreads_error env k O _ _ _ hscan
  | ok acc => rw [hscan] at h; cases h

theorem acquireAll_error (env : Env σ) (t : ThreadId) :
    ∀ (l : List ObjectId) (k : KernelState σ) (e : Fault),
      acquireAll env t l k = Except.error e → e = Fault.claim_should_wait := by
  intro l
  induction l with
  | nil => intro k e h; cases h
  | cons o rest ih =>
    intro k e h
    unfold acquireAll at h
    split_ifs at h
    · exact (Except.error.inj h).symm
    · exact ih _ e h

theorem claimStep_error (env : Env σ) (O : ObjectId) (t : ThreadId) (k : KernelState σ)
    (e : Fault) (h : claimStep env O t k = Except.error e) : e = Fault.claim_should_wait := by
  unfold claimStep at h
  split_ifs at h
  exact acquireAll_error env t _ k e h

theorem WakeupWaitingThread_error (env : Env σ) (O : ObjectId) (T : ThreadId)
    (k : KernelState σ) (e : Fault) (h : WakeupWaitingThread env O (some T) k = Except.error e) :
    (e = Fault.wakeup_should_wait ∧ env.ShouldWait k.res O (some T) = true) ∨
    (e = Fault.claim_should_wait ∧ env.ShouldWait k.res O (some T) = false) := by
  unfold WakeupWaitingThread at h
  cases hsw : env.ShouldWait k.res O (some T) with
  | true =>
    simp only [hsw, if_true] at h
    exact Or.inl ⟨(Except.error.inj h).symm, rfl⟩
  | false =>
    simp only [hsw, Bool.false_eq_true, if_false] at h
    cases hc : claimStep env O T k with
    | error e1 =>
      rw [hc] at h
      have he : e1 = e := Except.error.inj h
      subst he
      exact Or.inr ⟨claimStep_error env O T k e1 hc, rfl⟩
    | ok kc => rw [hc] at h; cases h

/-- C16: every thread that `WakeupAllWaitingThreads` passes to
`WakeupWaitingThread` is non-null (it is the thread the scheduler returned)
and `ShouldWait` of the object is false for it in the state of the call, so
the entry assertion of `WakeupWaitingThread` does not fail there, and no run
of the mass-wakeup loop, whatever the registry, `ShouldWait`, `Acquire` and the
fuel, ends at that assertion. -/
theorem WakeupAllWaitingThreads_entry_assertion_holds (env : Env σ) (O : ObjectId) :
    (∀ (k : KernelState σ) (T : ThreadId),
      GetHighestPriorityReadyThread env O k = Except.ok (some T) →
      env.ShouldWait k.res O (some T) = false ∧
      WakeupWaitingThread env O (some T) k ≠ Except.error Fault.wakeup_should_wait) ∧
    (∀ (fuel : Nat) (k : KernelState σ),
      WakeupAllWaitingThreads env O fuel k ≠ some (Except.error Fault.wakeup_should_wait)) := by
  have hcall : ∀ (k : KernelState σ) (T : ThreadId),
      GetHighestPriorityReadyThread env O k = Except.ok (some T) →
      env.ShouldWait k.res O (some T) = false ∧
      WakeupWaitingThread env O (some T) k ≠ Except.error Fault.wakeup_should_wait := by
    intro k T hg
    obtain ⟨_, _, _, _, helig, _⟩ := GetHighestPriorityReadyThread_some env O k T hg
    refine ⟨helig.1, fun hw => ?_⟩
    rcases WakeupWaitingThread_error env O T k _ hw with ⟨_, hsw⟩ | ⟨he, _⟩
    · rw [helig.1] at hsw
      cases hsw
    · cases he
  refine ⟨hcall, fun fuel => ?_⟩
  induction fuel with
  | zero => intro k h; cases h
  | succ fuel ih =>
    intro k h
    unfold WakeupAllWaitingThreads at h
    cases hg : GetHighestPriorityReadyThread env O k with
    | error e =>
      rw [hg] at h
      have he := GetHighestPriorityReadyThread_error env O k e hg
      subst he
      cases h
    | ok r =>
      rw [hg] at h
      cases r with
      | none => cases h
      | some T =>
        simp only at h
        cases hw : WakeupWaitingThread env O (some T) k with
        | error e =>
          rw [hw] at h
          have he : e = Fault.wakeup_should_wait := Except.error.inj (Option.some.inj h)
          subst he
          exact (hcall k T hg).2 hw
        | ok k1 =>
          rw [hw] at h
          exact ih k1 h

theorem acquireAll_ok_of_local (env : Env σ) (t : ThreadId)
    (hlocal : ∀ (s : σ) (o o1 : ObjectId) (x : ThreadId), o1 ≠ o →
      env.ShouldWait (env.Acquire s o x) o1 (some t) = env.ShouldWait s o1 (some t)) :
    ∀ (l : List ObjectId) (k : KernelState σ), l.Nodup →
      (∀ o ∈ l, env.ShouldWait k.res o (some t) = false) →
      ∃ kc, acquireAll env t l k = Except.ok kc := by
  intro l
  induction l with
  | nil => intro k _ _; exact ⟨k, rfl⟩
  | cons o rest ih =>
    intro k hnodup hready
    have ho : env.ShouldWait k.res o (some t) = false := hready o (List.mem_cons_self _ _)
    obtain ⟨hnot, hrest⟩ := List.nodup_cons.mp hnodup
    unfold acquireAll
    simp only [ho, Bool.false_eq_true, if_false]
    apply ih _ hrest
    intro o1 ho1
    have hne : o1 ≠ o := fun heq => hnot (heq ▸ ho1)
    show env.ShouldWait (env.Acquire k.res o t) o1 (some t) = false
    rw [hlocal k.res o o1 t hne]
    exact hready o1 (List.mem_cons_of_mem _ ho1)

/-- What holds of C17: a wait-all thread that the scheduler returns and whose
wait set names no object twice is woken to completion, when each `Acquire`
changes `ShouldWait` of the object it is invoked on only. -/
theorem WakeupWaitingThread_wait_all_completes (env : Env σ) (O : ObjectId) (T : ThreadId)
    (k : KernelState σ)
    (hlocal : ∀ (s : σ) (o o1 : ObjectId) (x : ThreadId), o1 ≠ o →
      env.ShouldWait (env.Acquire s o x) o1 (some T) = env.ShouldWait s o1 (some T))
    (hg : GetHighestPriorityReadyThread env O k = Except.ok (some T))
    (hall : (k.threads T).status = ThreadStatus.THREADSTATUS_WAIT_SYNCH_ALL)
    (hnodup : (k.threads T).wait_objects.Nodup) :
    ∃ k1, WakeupWaitingThread env O (some T) k = Except.ok k1 := by
  obtain ⟨_, _, _, _, helig, _⟩ := GetHighestPriorityReadyThread_some env O k T hg
  obtain ⟨kc, hkc⟩ := acquireAll_ok_of_local env T hlocal (k.threads T).wait_objects k hnodup
    (helig.2 hall)
  have hc : claimStep env O T k = Except.ok kc := by
    unfold claimStep
    simp only [IsSleepingOnWaitAll, hall, beq_self_eq_true, Bool.not_true, Bool.false_eq_true,
      if_false]
    exact hkc
  refine ⟨finishWakeup env O T kc, ?_⟩
  unfold WakeupWaitingThread
  simp only [helig.1, Bool.false_eq_true, if_false, hc]

/-- C17 fails on the code when the wait set names an object twice.  In the
semaphore world each `Acquire` changes the count of its own object only.
Thread 7 waits for all of `[1, 1]`, two handles to semaphore 1 of count 1: the
scheduler returns it, and `WakeupWaitingThread` stops at the per-object
assertion of the claim loop, the first `Acquire` having taken the only unit.
With the two distinct semaphores `[1, 2]` the same call completes. -/
theorem WakeupWaitingThread_duplicate_handle_asserts :
    (∀ (s : ObjectId → Nat) (o o1 : ObjectId) (x t : ThreadId), o1 ≠ o →
      semaphoreEnv.ShouldWait (semaphoreEnv.Acquire s o x) o1 (some t) =
        semaphoreEnv.ShouldWait s o1 (some t)) ∧
    (duplicateHandleState.threads 7).status = ThreadStatus.THREADSTATUS_WAIT_SYNCH_ALL ∧
    (duplicateHandleState.threads 7).wait_objects = [1, 1] ∧
    GetHighestPriorityReadyThread semaphoreEnv 1 duplicateHandleState = Except.ok (some 7) ∧
    WakeupWaitingThread semaphoreEnv 1 (some 7) duplicateHandleState =
      Except.error Fault.claim_should_wait ∧
    GetHighestPriorityReadyThread semaphoreEnv 1 twoSemaphoresState = Except.ok (some 7) ∧
    ∃ k1, WakeupWaitingThread semaphoreEnv 1 (some 7) twoSemaphoresState = Except.ok k1 :=
  ⟨fun s o o1 x t hne => by simp [semaphoreEnv, hne], rfl, rfl, rfl, rfl, rfl, _, rfl⟩

/-! ## The linkage between threads and wait objects -/

theorem wakeState_linked (cb : Option CallbackId) : Linked (wakeState cb) := by
  intro X P
  unfold wakeState
  simp only
  by_cases hP1 : P = 1
  · subst hP1
    by_cases hX7 : X = 7
    · subst hX7
      simp [mkThread]
    · by_cases hX8 : X = 8
      · subst hX8
        simp [mkThread]
      · simp [hX7, hX8, idleThread]
  · by_cases hP2 : P = 2
    · subst hP2
      by_cases hX7 : X = 7
      · subst hX7
        simp [mkThread]
      · by_cases hX8 : X = 8
        · subst hX8
          simp [mkThread]
        · simp [hX7, hX8, idleThread]
    · by_cases hX7 : X = 7
      · subst hX7
        simp [hP1, hP2, mkThread]
      · by_cases hX8 : X = 8
        · subst hX8
          simp [hP1, hP2, mkThread]
        · simp [hP1, hP2, hX7, hX8, idleThread]

theorem wakeState_nodup (cb : Option CallbackId) :
    ∀ P, ((wakeState cb).objects P).waiting_threads.Nodup := by
  intro P
  unfold wakeState
  simp only
  split_ifs <;> decide

theorem rearmState_linked : Linked rearmState := by
  intro X P
  unfold rearmState
  simp only
  by_cases hP : P = 0
  · subst hP
    by_cases hX : X = 1
    · subst hX
      simp [mkThread]
    · simp [hX, idleThread]
  · by_cases hX : X = 1
    · subst hX
      simp [hP, mkThread]
    · simp [hP, hX, idleThread]

theorem rearmState_nodup : ∀ P, (rearmState.objects P).waiting_threads.Nodup := by
  intro P
  unfold rearmState
  simp only
  split_ifs <;> decide

theorem pairState_nodup (cb : Option CallbackId) :
    ∀ P, ((pairState cb).objects P).waiting_threads.Nodup := by
  intro P
  unfold pairState
  simp only
  split_ifs <;> decide

/-- C18 (amended): if, before the call, every thread is in the registry of an
object exactly when the object is in its wait set and the registries are
duplicate-free, and the resumption callback of `T`, if any, takes no action,
then after a completed `WakeupWaitingThread(T)` on `O` the same equivalence
holds for every thread and object, `T` is in no registry, the wait set of `T`
is empty, and the registries are still duplicate-free. -/
theorem WakeupWaitingThread_preserves_links (env : Env σ) (O : ObjectId) (T : ThreadId)
    (k k1 : KernelState σ) (hlinked : Linked k)
    (hnodup : ∀ P, (k.objects P).waiting_threads.Nodup)
    (hquiet : ∀ cb index kd,
      (env.callbacks cb ThreadWakeupReason.Signal T O index kd).actions = [])
    (h : WakeupWaitingThread env O (some T) k = Except.ok k1) :
    Linked k1 ∧ (∀ P, T ∉ (k1.objects P).waiting_threads) ∧
    (k1.threads T).wait_objects = [] ∧
    (∀ P, (k1.objects P).waiting_threads.Nodup) := by
  obtain ⟨_, kc, hc, hk1⟩ := WakeupWaitingThread_some env O T k k1 h
  obtain ⟨hth, hob, _⟩ := claimStep_frame env O T k kc hc
  have hq := callbackActions_of_quiet env O T kc hquiet
  obtain ⟨f1, f2, _⟩ := finishWakeup_fields env O T kc hq
  subst hk1
  have hreg : ∀ P, ((finishWakeup env O T kc).objects P).waiting_threads =
      eraseTimes T ((k.threads T).wait_objects.count P) (k.objects P).waiting_threads := by
    intro P
    rw [finishWakeup_objects env O T kc hq, hth, hob]
  have hgone : ∀ P, T ∉ ((finishWakeup env O T kc).objects P).waiting_threads := by
    intro P
    rw [hreg P]
    by_cases hP : P ∈ (k.threads T).wait_objects
    · rw [eraseTimes_nodup T _ _ (hnodup P) (List.count_pos_iff.mpr hP)]
      exact fun hmem => ((List.Nodup.mem_erase_iff (hnodup P)).mp hmem).1 rfl
    · have hnot : T ∉ (k.objects P).waiting_threads := fun hmem => hP ((hlinked T P).mp hmem)
      rw [eraseTimes_of_not_mem T _ _ hnot]
      exact hnot
  refine ⟨fun X P => ?_, hgone, by rw [f1], fun P => ?_⟩
  · by_cases hX : X = T
    · subst hX
      rw [f1]
      simp [hgone P]
    · rw [hreg P, eraseTimes_mem_of_ne T X hX, f2 X hX, hth]
      exact hlinked X P
  · rw [hreg P]
    exact (hnodup P).sublist (eraseTimes_sublist T _ _)

/-- Threads 7 (wait set `[1, 2]`) and 8 (wait set `[1]`) are linked with objects
1 and 2; after thread 7 is woken on object 1 the linkage still holds, thread 7
is in no registry and its wait set is empty. -/
theorem WakeupWaitingThread_preserves_links_witness :
    ∃ k1, WakeupWaitingThread stickyEnv 1 (some 7) (wakeState none) = Except.ok k1 ∧
      (k1.objects 1).waiting_threads = [8] ∧ (k1.objects 2).waiting_threads = [] ∧
      Linked k1 ∧ (∀ P, 7 ∉ (k1.objects P).waiting_threads) ∧
      (k1.threads 7).wait_objects = [] ∧
      (∀ P, (k1.objects P).waiting_threads.Nodup) :=
  ⟨_, rfl, rfl, rfl,
    WakeupWaitingThread_preserves_links stickyEnv 1 7 (wakeState none) _
      (wakeState_linked none) (wakeState_nodup none) (fun _ _ _ => rfl) rfl⟩

/-- C18 as stated fails: thread 1 and object 0 are linked and the registries
are duplicate-free, but the callback of thread 1 declines the resumption and
re-arms the wait: after the completed call thread 1 is in the registry of
object 0 and its wait set is not empty. -/
theorem WakeupWaitingThread_links_rearmed :
    Linked rearmState ∧ (∀ P, (rearmState.objects P).waiting_threads.Nodup) ∧
    ∃ k1, WakeupWaitingThread rearmEnv 0 (some 1) rearmState = Except.ok k1 ∧
      1 ∈ (k1.objects 0).waiting_threads ∧ (k1.threads 1).wait_objects = [0] :=
  ⟨rearmState_linked, rearmState_nodup, _, rfl, by decide, rfl⟩

/-- C19 (amended): a completed `WakeupWaitingThread(T)` whose resumption
callback, if any, takes no action changes no other thread's registration.  On
duplicate-free registries, the registry of every object `P` afterwards is the
registry before, or the registry before with the first occurrence of `T`
removed, and it is the registry before when `P` was not in `T.wait_objects`;
the other threads occur in it as before and in the same relative order; and
the record of every other thread, its `wait_objects` included, is unchanged. -/
theorem WakeupWaitingThread_changes_no_other_thread (env : Env σ) (O : ObjectId)
    (T : ThreadId) (k k1 : KernelState σ)
    (hnodup : ∀ P, (k.objects P).waiting_threads.Nodup)
    (hquiet : ∀ cb index kd,
      (env.callbacks cb ThreadWakeupReason.Signal T O index kd).actions = [])
    (h : WakeupWaitingThread env O (some T) k = Except.ok k1) :
    (∀ P, ((k1.objects P).waiting_threads = (k.objects P).waiting_threads ∨
        (k1.objects P).waiting_threads = ((k.objects P).waiting_threads).erase T) ∧
      (P ∉ (k.threads T).wait_objects →
        (k1.objects P).waiting_threads = (k.objects P).waiting_threads) ∧
      (k1.objects P).waiting_threads.filter (fun x => decide (x ≠ T)) =
        (k.objects P).waiting_threads.filter (fun x => decide (x ≠ T)) ∧
      ∀ X, X ≠ T → (X ∈ (k1.objects P).waiting_threads ↔ X ∈ (k.objects P).waiting_threads)) ∧
    (∀ X, X ≠ T → k1.threads X = k.threads X ∧
      (k1.threads X).wait_objects = (k.threads X).wait_objects) := by
  obtain ⟨_, kc, hc, hk1⟩ := WakeupWaitingThread_some env O T k k1 h
  obtain ⟨hth, hob, _⟩ := claimStep_frame env O T k kc hc
  have hq := callbackActions_of_quiet env O T kc hquiet
  obtain ⟨_, f2, _⟩ := finishWakeup_fields env O T kc hq
  subst hk1
  have hreg : ∀ P, ((finishWakeup env O T kc).objects P).waiting_threads =
      eraseTimes T ((k.threads T).wait_objects.count P) (k.objects P).waiting_threads := by
    intro P
    rw [finishWakeup_objects env O T kc hq, hth, hob]
  have hsame : ∀ P, P ∉ (k.threads T).wait_objects →
      ((finishWakeup env O T kc).objects P).waiting_threads = (k.objects P).waiting_threads := by
    intro P hP
    rw [hreg P, List.count_eq_zero.mpr hP]
    rfl
  refine ⟨fun P => ⟨?_, hsame P, ?_, fun X hX => ?_⟩, fun X hX => ?_⟩
  · by_cases hP : P ∈ (k.threads T).wait_objects
    · right
      rw [hreg P, eraseTimes_nodup T _ _ (hnodup P) (List.count_pos_iff.mpr hP)]
    · exact Or.inl (hsame P hP)
  · rw [hreg P]
    exact eraseTimes_filter T _ _
  · rw [hreg P]
    exact eraseTimes_mem_of_ne T X hX _ _
  · have hX1 : (finishWakeup env O T kc).threads X = k.threads X := by rw [f2 X hX, hth]
    exact ⟨hX1, by rw [hX1]⟩

/-- Thread 7 (wait set `[1, 2]`) is woken on object 1: the registry `[8, 7]` of
object 1 becomes `[8]`, the registry of object 0, which thread 7 did not wait
for, is unchanged, and thread 8 keeps its record. -/
theorem WakeupWaitingThread_changes_no_other_thread_witness :
    ∃ k1, WakeupWaitingThread stickyEnv 1 (some 7) (wakeState none) = Except.ok k1 ∧
      ((wakeState none).objects 1).waiting_threads = [8, 7] ∧
      (k1.objects 1).waiting_threads = [8] ∧
      k1.threads 8 = (wakeState none).threads 8 ∧
      (∀ P, ((k1.objects P).waiting_threads = ((wakeState none).objects P).waiting_threads ∨
          (k1.objects P).waiting_threads =
            (((wakeState none).objects P).waiting_threads).erase 7) ∧
        (P ∉ ((wakeState none).threads 7).wait_objects →
          (k1.objects P).waiting_threads = ((wakeState none).objects P).waiting_threads) ∧
        (k1.objects P).waiting_threads.filter (fun x => decide (x ≠ 7)) =
          ((wakeState none).objects P).waiting_threads.filter (fun x => decide (x ≠ 7)) ∧
        ∀ X, X ≠ 7 → (X ∈ (k1.objects P).waiting_threads ↔
          X ∈ ((wakeState none).objects P).waiting_threads)) ∧
      (∀ X, X ≠ 7 → k1.threads X = (wakeState none).threads X ∧
        (k1.threads X).wait_objects = ((wakeState none).threads X).wait_objects) :=
  ⟨_, rfl, rfl, rfl, rfl,
    WakeupWaitingThread_changes_no_other_thread stickyEnv 1 7 (wakeState none) _
      (wakeState_nodup none) (fun _ _ _ => rfl) rfl⟩

/-- C19 as stated fails: threads 1 and 2 are registered on object 0 in that
order, on duplicate-free registries, and the callback of thread 1 declines
the resumption and re-arms the wait on object 0.  After the completed call
the registry of object 0 is `[2, 1]`: neither the registry before, `[1, 2]`,
nor the registry before without thread 1, `[2]`. -/
theorem WakeupWaitingThread_registry_reordered :
    (∀ P, ((pairState (some 3)).objects P).waiting_threads.Nodup) ∧
    ((pairState (some 3)).objects 0).waiting_threads = [1, 2] ∧
    (((pairState (some 3)).objects 0).waiting_threads).erase 1 = [2] ∧
    ∃ k1, WakeupWaitingThread rearmEnv 0 (some 1) (pairState (some 3)) = Except.ok k1 ∧
      (k1.objects 0).waiting_threads = [2, 1] :=
  ⟨pairState_nodup (some 3), rfl, rfl, _, rfl, rfl⟩

end Kernel
